import Mathlib

/-!
# amazon-ec2-instance-selector: filter transforms, service registry, sort options

A shallow embedding of `pkg/selector/aggregates.go`, `pkg/selector/services.go` and
`pkg/selector/outputs/types.go`.

Conventions of the embedding

* A Go pointer field is an `Option`: `nil` is `none`.
* A Go function returning `(Filters, error)` returns `Filters × Option Error`.
* A function that can fault at run time (nil dereference, index out of range) returns
  `Option (Filters × Option Error)`, where `none` is the fault.
* Collaborators outside the repository (the EC2 client, `regexp.Compile`, the Unicode case
  tables behind `strings.ToLower`) are parameters.
-/

namespace InstanceSelector

/-! ## Go strings -/

/-- Go `strings.Split(s, sep)` for a one-character separator, on the list of characters:
the pieces between the occurrences of `sep`, always at least one piece. -/
def splitChars (sep : Char) : List Char → List (List Char)
  | [] => [[]]
  | c :: cs =>
    if c = sep then [] :: splitChars sep cs
    else
      match splitChars sep cs with
      | [] => [[c]]
      | piece :: rest => (c :: piece) :: rest

/-- Go `strings.Split(s, sep)` for a one-character separator. -/
def stringsSplit (s : String) (sep : Char) : List String :=
  (splitChars sep s.data).map String.mk

/-- Go `unicode.ToLower(r)`: a rune up to `MaxASCII` is mapped by the code of the function
itself, `A`..`Z` to `a`..`z` and any other to itself; every other rune is mapped by the case
tables of the standard library, which are the parameter `caseTable`. -/
def unicodeToLower (caseTable : Char → Char) (r : Char) : Char :=
  if r.val ≤ 0x7F then r.toLower else caseTable r

/-- Go `strings.ToLower(s)`: every rune of `s` is mapped by `unicode.ToLower`. -/
def stringsToLower (caseTable : Char → Char) (s : String) : String :=
  String.mk (s.data.map (unicodeToLower caseTable))

/-! ## Errors -/

/-- Go `error` values: the ones the code builds with `fmt.Errorf`, and the ones handed over by
a collaborator (catalog, pattern compiler, service preset). -/
inductive Error where
  | errorf (msg : String)
  | foreign (msg : String)
  deriving DecidableEq, Repr

/-! ## Data model -/

/-- Modelled from the spec: `IntRangeFilter`, the integer range of section 3, declared in a file
of the package that is not among the sources. -/
structure IntRangeFilter where
  LowerBound : Int
  UpperBound : Int
  deriving DecidableEq, Repr

/-- Modelled from the spec: `bytequantity.ByteQuantity`, a quantity of memory held in a `uint64`
(aggregates.go builds it as `ByteQuantity{Quantity: uint64(...)}`). -/
structure ByteQuantity where
  Quantity : Nat
  deriving DecidableEq, Repr

/-- Modelled from the spec: `ByteQuantityRangeFilter`, the byte-quantity range of section 3. -/
structure ByteQuantityRangeFilter where
  LowerBound : ByteQuantity
  UpperBound : ByteQuantity
  deriving DecidableEq, Repr

/-- A compiled `*regexp.Regexp`, identified by the expression it was compiled from. -/
structure Regexp where
  expr : String
  deriving DecidableEq, Repr

/-- Modelled from the spec: the `Filters` aggregate of section 3, declared in a file of the
package that is not among the sources. Every field is a pointer in the Go struct; the fields
are the ones section 3 lists, which are also all the fields the three source files read or
write. -/
structure Filters where
  InstanceTypeBase : Option String := none
  Flexible : Option Bool := none
  Emr : Option Bool := none
  Service : Option String := none
  BareMetal : Option Bool := none
  Fpga : Option Bool := none
  CPUArchitecture : Option String := none
  GpusRange : Option IntRangeFilter := none
  VCpusRange : Option IntRangeFilter := none
  MemoryRange : Option ByteQuantityRangeFilter := none
  AllowList : Option Regexp := none
  DenyList : Option Regexp := none
  deriving DecidableEq, Repr

/-! ## services.go -/

/-- The `Service` interface: `Filters(version string) (Filters, error)`. -/
abbrev Service := String → Filters × Option Error

/-- The `ServiceRegistry` struct. Its only field is the Go map `services`, which is `nil`
(`none`) in the zero value of the struct. -/
structure ServiceRegistry where
  services : Option (String → Option Service)

/-- The function `NewRegistry`: a registry with an empty, non-nil map. -/
def NewRegistry : ServiceRegistry :=
  { services := some (fun _ => none) }

/-- The method `Register`, as the registry the caller holds after the call. The receiver is a
value: when its map is nil the fresh map is made in the callee's copy and the caller's registry
stays as it was; otherwise the shared map gets the entry `name`. -/
def Register (sr : ServiceRegistry) (name : String) (service : Service) : ServiceRegistry :=
  match sr.services with
  | none => sr
  | some m => { services := some (fun k => if k = name then some service else m k) }

/-- Reading the Go map `sr.services[serviceName]`; a nil map has no entries. -/
def ServiceRegistry.lookup (sr : ServiceRegistry) (serviceName : String) : Option Service :=
  match sr.services with
  | none => none
  | some m => m serviceName

/-! ### The merge of `github.com/imdario/mergo` -/

/-- The function `mergo.Merge` with its default options on two non-nil `*bool`: the pointees
are merged, and the destination is written when it is the zero value `false` and the source is
not. -/
def mergeBool (dst src : Bool) : Bool :=
  if dst = false ∧ src ≠ false then src else dst

/-- The merge of two strings: an empty destination takes a non-empty source. -/
def mergeString (dst src : String) : String :=
  if dst = "" ∧ src ≠ "" then src else dst

/-- The merge of two `int`: a zero destination takes a non-zero source. -/
def mergeInt (dst src : Int) : Int :=
  if dst = 0 ∧ src ≠ 0 then src else dst

/-- The merge of two `uint64`: a zero destination takes a non-zero source. -/
def mergeUint (dst src : Nat) : Nat :=
  if dst = 0 ∧ src ≠ 0 then src else dst

/-- The merge of two `IntRangeFilter` structs, field by field. -/
def mergeIntRange (dst src : IntRangeFilter) : IntRangeFilter :=
  { LowerBound := mergeInt dst.LowerBound src.LowerBound
    UpperBound := mergeInt dst.UpperBound src.UpperBound }

/-- The merge of two `ByteQuantity` structs, field by field. -/
def mergeByteQuantity (dst src : ByteQuantity) : ByteQuantity :=
  { Quantity := mergeUint dst.Quantity src.Quantity }

/-- The merge of two `ByteQuantityRangeFilter` structs, field by field. -/
def mergeByteRange (dst src : ByteQuantityRangeFilter) : ByteQuantityRangeFilter :=
  { LowerBound := mergeByteQuantity dst.LowerBound src.LowerBound
    UpperBound := mergeByteQuantity dst.UpperBound src.UpperBound }

/-- The merge of two `regexp.Regexp` structs: the struct has no exported field, so the
destination is left as it is. -/
def mergeRegexp (dst _src : Regexp) : Regexp := dst

/-- The merge of a pointer field: a nil source changes nothing, a nil destination takes the
source pointer, and two non-nil pointers have their pointees merged by `inner`. -/
def mergePtr {α : Type} (inner : α → α → α) (dst src : Option α) : Option α :=
  match dst, src with
  | d, none => d
  | none, some s => some s
  | some d, some s => some (inner d s)

/-- The call `mergo.Merge(&filters, serviceFilters)` of `ExecuteTransforms`, as the pair of the
`filters` after the call and the error returned. Both arguments are `Filters` structs, so none of
the type checks of the library fails and the error is nil. The pointees of distinct fields are
taken to be distinct objects. -/
def mergoMerge (dst src : Filters) : Filters × Option Error :=
  ({ InstanceTypeBase := mergePtr mergeString dst.InstanceTypeBase src.InstanceTypeBase
     Flexible := mergePtr mergeBool dst.Flexible src.Flexible
     Emr := mergePtr mergeBool dst.Emr src.Emr
     Service := mergePtr mergeString dst.Service src.Service
     BareMetal := mergePtr mergeBool dst.BareMetal src.BareMetal
     Fpga := mergePtr mergeBool dst.Fpga src.Fpga
     CPUArchitecture := mergePtr mergeString dst.CPUArchitecture src.CPUArchitecture
     GpusRange := mergePtr mergeIntRange dst.GpusRange src.GpusRange
     VCpusRange := mergePtr mergeIntRange dst.VCpusRange src.VCpusRange
     MemoryRange := mergePtr mergeByteRange dst.MemoryRange src.MemoryRange
     AllowList := mergePtr mergeRegexp dst.AllowList src.AllowList
     DenyList := mergePtr mergeRegexp dst.DenyList src.DenyList }, none)

/-- Lines 58-64 of services.go: the service name and the version parsed from the `Service`
string. The name is the first piece of the lower-cased string split at every `-`; the version is
the second piece when there are exactly two pieces, and empty otherwise. -/
def serviceNameAndVersion (caseTable : Char → Char) (service : String) : String × String :=
  let serviceAndVersion := stringsToLower caseTable service
  let versionParts := stringsSplit serviceAndVersion '-'
  let serviceName := versionParts.headD ""
  let version := if versionParts.length = 2 then versionParts.getD 1 "" else ""
  (serviceName, version)

/-- Lines 65-77 of services.go: the lookup of `serviceName`, the call of the preset with
`version`, and the merge of its filters into `filters`. -/
def applyService (sr : ServiceRegistry) (filters : Filters) (serviceName version : String) :
    Filters × Option Error :=
  match sr.lookup serviceName with
  | none => (filters, some (Error.errorf ("Service " ++ serviceName ++ " is not registered")))
  | some service =>
    match service version with
    | (_, some err) => (filters, some err)
    | (serviceFilters, none) =>
      match mergoMerge filters serviceFilters with
      | (merged, some err) => (merged, some err)
      | (merged, none) => (merged, none)

/-- The method `ExecuteTransforms`. -/
def ExecuteTransforms (caseTable : Char → Char) (sr : ServiceRegistry) (filters : Filters) :
    Filters × Option Error :=
  match filters.Service with
  | none => (filters, none)
  | some service =>
    let parsed := serviceNameAndVersion caseTable service
    applyService sr filters parsed.1 parsed.2

/-! ## float64 arithmetic of aggregates.go -/

/-- The quotient `a / b` rounded to the nearest integer, a tie going to the even one. -/
def roundDiv (a b : Nat) : Nat :=
  let q := a / b
  let r := a % b
  if b < 2 * r ∨ (2 * r = b ∧ q % 2 = 1) then q + 1 else q

/-- The number of low-order bits of `n` that do not fit in a significand of 53 bits. -/
def excessBits : Nat → Nat → Nat
  | 0, _ => 0
  | fuel + 1, n => if n < 2 ^ 53 then 0 else excessBits fuel (n / 2) + 1

/-- The natural number `n` rounded to 53 significant bits, to nearest and ties to even: the
rounding of IEEE 754 binary64 on an exact result `n`. -/
def roundSignificand (n : Nat) : Nat :=
  let s := excessBits n n
  roundDiv n (2 ^ s) * 2 ^ s

/-- A finite `float64` of the magnitudes the transforms compute with: the number
`num / 2 ^ scale`, negated when `neg` is set. -/
structure Float64 where
  neg : Bool
  num : Nat
  scale : Nat
  deriving DecidableEq, Repr

/-- The conversion `float64(v)` of an `int64`. -/
def Float64.ofInt (v : Int) : Float64 :=
  { neg := decide (v < 0), num := roundSignificand v.natAbs, scale := 0 }

/-- The product `x * y` of two `float64`, rounded once. -/
def Float64.mul (x y : Float64) : Float64 :=
  { neg := xor x.neg y.neg, num := roundSignificand (x.num * y.num), scale := x.scale + y.scale }

/-- The integer part of a `float64`, rounded toward zero. -/
def Float64.trunc (x : Float64) : Int :=
  if x.neg then -((x.num / 2 ^ x.scale : Nat) : Int) else ((x.num / 2 ^ x.scale : Nat) : Int)

/-- The instruction `CVTTSD2SQ` of amd64 on the integer part `t` of its operand: `t` itself
when it is an `int64`, and the most negative `int64` otherwise. -/
def cvttsd2sq (t : Int) : Int :=
  if -2 ^ 63 ≤ t ∧ t < 2 ^ 63 then t else -2 ^ 63

/-- The conversion `int(x)`: truncation toward zero. For a value outside the range of `int` Go
leaves the result to the implementation; the embedding takes the one of the gc compiler on
amd64, where `int` has 64 bits and the conversion is the instruction `CVTTSD2SQ`. -/
def Float64.toInt (x : Float64) : Int :=
  cvttsd2sq x.trunc

/-- The conversion `uint64(x)`: truncation toward zero. For a value outside the range of
`uint64` Go leaves the result to the implementation; the embedding takes the one of the gc
compiler on amd64: below `2 ^ 63` the bits of the signed conversion, and from `2 ^ 63` on the
bits of the signed conversion of `x - 2 ^ 63` with the top bit set. -/
def Float64.toUint64 (x : Float64) : Nat :=
  if x.trunc < 2 ^ 63 then (cvttsd2sq x.trunc % 2 ^ 64).toNat
  else (cvttsd2sq (x.trunc - 2 ^ 63) % 2 ^ 64).toNat ||| 2 ^ 63

/-- The constant `AggregateLowPercentile = 0.9` as the `float64` operand it is converted to:
the `float64` nearest to `9 / 10`, which has 53 binary places. -/
def AggregateLowPercentile : Float64 :=
  { neg := false, num := roundDiv (9 * 2 ^ 53) 10, scale := 53 }

/-- The constant `AggregateHighPercentile = 1.2` as the `float64` operand it is converted to:
the `float64` nearest to `12 / 10`, which has 52 binary places. -/
def AggregateHighPercentile : Float64 :=
  { neg := false, num := roundDiv (12 * 2 ^ 52) 10, scale := 52 }

/-! ## The catalog: the records of `ec2.DescribeInstanceTypes` -/

/-- The field of `ec2.ProcessorInfo` the transform reads. -/
structure ProcessorInfo where
  SupportedArchitectures : List (Option String)
  deriving DecidableEq, Repr

/-- The record `ec2.FpgaInfo`; the transform only tests the pointer to it. -/
structure FpgaInfo where
  TotalFpgaMemoryInMiB : Option Int
  deriving DecidableEq, Repr

/-- The record `ec2.GpuInfo`: the device counts of its entries. -/
structure GpuInfo where
  Gpus : List Int
  deriving DecidableEq, Repr

/-- The field of `ec2.MemoryInfo` the transform reads. -/
structure MemoryInfo where
  SizeInMiB : Option Int
  deriving DecidableEq, Repr

/-- The field of `ec2.VCpuInfo` the transform reads. -/
structure VCpuInfo where
  DefaultVCpus : Option Int
  deriving DecidableEq, Repr

/-- The fields of `ec2.InstanceTypeInfo` the transform reads; each is a pointer. -/
structure InstanceTypeInfo where
  BareMetal : Option Bool
  ProcessorInfo : Option ProcessorInfo
  FpgaInfo : Option FpgaInfo
  GpuInfo : Option GpuInfo
  MemoryInfo : Option MemoryInfo
  VCpuInfo : Option VCpuInfo
  deriving DecidableEq, Repr

/-- The record `ec2.DescribeInstanceTypesOutput`: a slice of pointers. -/
structure DescribeInstanceTypesOutput where
  InstanceTypes : List (Option InstanceTypeInfo)
  deriving DecidableEq, Repr

/-- The EC2 client: `DescribeInstanceTypes` on the input that names one instance type, giving
the output pointer and the error. -/
structure EC2API where
  DescribeInstanceTypes : String → Option DescribeInstanceTypesOutput × Option Error

/-- The `Selector` struct, with the client the transforms call. -/
structure Selector where
  EC2 : EC2API

/-- Modelled from the spec: `getTotalGpusCount`, a function of the package that is not among the
sources: the total GPU device count of the record, as a non-nil `*int64`. -/
def getTotalGpusCount (gpusInfo : GpuInfo) : Option Int :=
  some gpusInfo.Gpus.sum

/-- The call `regexp.Compile(expr)`. Whether `expr` is well formed is decided by the library:
`syntaxError expr` is the error it reports, if any. A compiled pattern keeps its expression. -/
def regexpCompile (syntaxError : String → Option Error) (expr : String) : Except Error Regexp :=
  match syntaxError expr with
  | some err => Except.error err
  | none => Except.ok { expr := expr }

/-! ## aggregates.go -/

/-- Lines 49-51 of aggregates.go: `BareMetal` from the record, when it is unset. Reading the
record through a nil pointer faults. -/
def deriveBareMetal (instanceTypeInfo : Option InstanceTypeInfo) (filters : Filters) :
    Option Filters :=
  if filters.BareMetal = none then do
    let info ← instanceTypeInfo
    pure { filters with BareMetal := info.BareMetal }
  else pure filters

/-- Lines 52-54 of aggregates.go: `CPUArchitecture` from the first entry of the architecture
list, when it is unset. Indexing an empty list faults. -/
def deriveCPUArchitecture (instanceTypeInfo : Option InstanceTypeInfo) (filters : Filters) :
    Option Filters :=
  if filters.CPUArchitecture = none then do
    let info ← instanceTypeInfo
    let processorInfo ← info.ProcessorInfo
    let architecture ← processorInfo.SupportedArchitectures.head?
    pure { filters with CPUArchitecture := architecture }
  else pure filters

/-- Lines 55-58 of aggregates.go: `Fpga` from the presence of FPGA info, when it is unset. -/
def deriveFpga (instanceTypeInfo : Option InstanceTypeInfo) (filters : Filters) :
    Option Filters :=
  if filters.Fpga = none then do
    let info ← instanceTypeInfo
    let isFpgaSupported := info.FpgaInfo.isSome
    pure { filters with Fpga := some isFpgaSupported }
  else pure filters

/-- Lines 60-63 of aggregates.go: the local `gpuCount`, 0 without GPU info and else the total
count, read through the pointer `getTotalGpusCount` returns. -/
def gpuCountOf (info : InstanceTypeInfo) : Option Int :=
  match info.GpuInfo with
  | none => some 0
  | some gpuInfo => getTotalGpusCount gpuInfo

/-- Lines 59-65 of aggregates.go: `GpusRange` from the total GPU count, when it is unset. -/
def deriveGpusRange (instanceTypeInfo : Option InstanceTypeInfo) (filters : Filters) :
    Option Filters :=
  if filters.GpusRange = none then do
    let info ← instanceTypeInfo
    let gpuCount ← gpuCountOf info
    pure { filters with GpusRange := some { LowerBound := gpuCount, UpperBound := gpuCount } }
  else pure filters

/-- Lines 66-70 of aggregates.go: `MemoryRange` from the memory size, when it is unset. -/
def deriveMemoryRange (instanceTypeInfo : Option InstanceTypeInfo) (filters : Filters) :
    Option Filters :=
  if filters.MemoryRange = none then do
    let info ← instanceTypeInfo
    let memoryInfo ← info.MemoryInfo
    let sizeInMiB ← memoryInfo.SizeInMiB
    let lowerBound : ByteQuantity :=
      { Quantity := ((Float64.ofInt sizeInMiB).mul AggregateLowPercentile).toUint64 }
    let upperBound : ByteQuantity :=
      { Quantity := ((Float64.ofInt sizeInMiB).mul AggregateHighPercentile).toUint64 }
    pure { filters with
      MemoryRange := some { LowerBound := lowerBound, UpperBound := upperBound } }
  else pure filters

/-- Lines 71-75 of aggregates.go: `VCpusRange` from the default vCPU count, when it is
unset. -/
def deriveVCpusRange (instanceTypeInfo : Option InstanceTypeInfo) (filters : Filters) :
    Option Filters :=
  if filters.VCpusRange = none then do
    let info ← instanceTypeInfo
    let vCpuInfo ← info.VCpuInfo
    let defaultVCpus ← vCpuInfo.DefaultVCpus
    let lowerBound := ((Float64.ofInt defaultVCpus).mul AggregateLowPercentile).toInt
    let upperBound := ((Float64.ofInt defaultVCpus).mul AggregateHighPercentile).toInt
    pure { filters with
      VCpusRange := some { LowerBound := lowerBound, UpperBound := upperBound } }
  else pure filters

/-- Lines 48-78 of aggregates.go: the six derivations in the order of the source, then the
clearing of `InstanceTypeBase`. -/
def deriveFromInstanceType (instanceTypeInfo : Option InstanceTypeInfo) (filters : Filters) :
    Option (Filters × Option Error) := do
  let filters ← deriveBareMetal instanceTypeInfo filters
  let filters ← deriveCPUArchitecture instanceTypeInfo filters
  let filters ← deriveFpga instanceTypeInfo filters
  let filters ← deriveGpusRange instanceTypeInfo filters
  let filters ← deriveMemoryRange instanceTypeInfo filters
  let filters ← deriveVCpusRange instanceTypeInfo filters
  pure ({ filters with InstanceTypeBase := none }, none)

/-- The method `TransformBaseInstanceType`. The result is `none` when the call faults on a nil
pointer or on an empty architecture list. -/
def TransformBaseInstanceType (itf : Selector) (filters : Filters) :
    Option (Filters × Option Error) :=
  match filters.InstanceTypeBase with
  | none => some (filters, none)
  | some base =>
    match itf.EC2.DescribeInstanceTypes base with
    | (_, some err) => some (filters, some err)
    | (none, none) => none
    | (some output, none) =>
      match output.InstanceTypes with
      | [] =>
        some (filters, some (Error.errorf
          ("error instance type " ++ base ++ " is not a valid instance type")))
      | instanceTypeInfo :: _ => deriveFromInstanceType instanceTypeInfo filters

/-- The expression `TransformFlexible` compiles for `AllowList`. -/
def flexiblePattern : String :=
  "^[cmr][3-9][ag]?\\..*$|^a[1-9]\\..*$|^t[2-9]\\..*$"

/-- The method `TransformFlexible`. -/
def TransformFlexible (syntaxError : String → Option Error) (_itf : Selector)
    (filters : Filters) : Filters × Option Error :=
  match filters.Flexible with
  | none => (filters, none)
  | some _ =>
    let filters :=
      if filters.CPUArchitecture = none then { filters with CPUArchitecture := some "x86_64" }
      else filters
    let filters :=
      if filters.BareMetal = none then { filters with BareMetal := some false } else filters
    let filters :=
      if filters.Fpga = none then { filters with Fpga := some false } else filters
    let compiled : Except Error Filters :=
      if filters.AllowList = none then
        match regexpCompile syntaxError flexiblePattern with
        | Except.error err => Except.error err
        | Except.ok baseAllowedInstanceTypes =>
          Except.ok { filters with AllowList := some baseAllowedInstanceTypes }
      else Except.ok filters
    match compiled with
    | Except.error err => (filters, some err)
    | Except.ok filters =>
      let filters :=
        if filters.VCpusRange = none ∧ filters.MemoryRange = none then
          let defaultVcpus : Int := 4
          { filters with
            VCpusRange := some { LowerBound := defaultVcpus, UpperBound := defaultVcpus } }
        else filters
      (filters, none)

/-- The list `itRegexList` of `TransformEmr`: the six family expressions, in its order. -/
def itRegexList : List String :=
  let mRegex := "m[1-2,4]|m3\\.2?xlarge|m5[adgn]*\\.([0-9]*xlarge|metal)|m6g\\.[0-9]*xlarge"
  let cRegex :=
    "c1\\.|c3\\.[0-9]*xlarge|c4\\.|c5[adn]?\\.[0-9]*xlarge|c6g\\.[0-9]*xlarge|cg1\\.|cc2\\.|cr1\\."
  let rRegex := "r[3-4]\\.[0-9]*xlarge|r5[adn]?\\.([0-9]*xlarge|metal)|r6g\\.[1-9]*xlarge"
  let iRegex := "i2\\.|i3[en]*\\.[0-9]*xlarge"
  let dgpxRegex :=
    "d2\\.|g2\\.2xlarge|g[3-4][sdn]*\\.[0-9]*xlarge|p2\\.|p3\\.|p3dn\\.|hi1\\.|hs1\\.|h1\\."
  let xzRegex := "x1\\.32xlarge|z1d\\.[0-9]*xlarge"
  [mRegex, cRegex, rRegex, iRegex, xzRegex, dgpxRegex]

/-- The method `TransformEmr`. -/
def TransformEmr (syntaxError : String → Option Error) (_itf : Selector)
    (filters : Filters) : Filters × Option Error :=
  match filters.Emr with
  | none => (filters, none)
  | some _ =>
    if filters.AllowList = none then
      match regexpCompile syntaxError (String.intercalate "|" itRegexList) with
      | Except.error err => (filters, some err)
      | Except.ok emrAllowedInstanceTypes =>
        ({ filters with AllowList := some emrAllowedInstanceTypes }, none)
    else (filters, none)

/-! ## outputs/types.go -/

/-- The struct `SortColumn`. -/
structure SortColumn where
  Column : String
  Mode : String
  deriving DecidableEq, Repr

/-- The struct `SortOptions`. -/
structure SortOptions where
  SortColumns : List SortColumn
  deriving DecidableEq, Repr

/-- The function `SortOptionsFrom`. -/
def SortOptionsFrom (sortOptions : Option String) : Option SortOptions :=
  match sortOptions with
  | none => none
  | some text =>
    some { SortColumns := (stringsSplit text ',').map (fun column =>
      let tokens := stringsSplit column ':'
      let mode := if tokens.length = 2 then tokens.getD 1 "" else "asc"
      { Column := tokens.headD "", Mode := mode }) }

/-! ## Statements of the specification -/

/-- The service name of section 4.5 of the specification: the lower-cased `Service` string up to
its first `-`, all of it when it has none. -/
def specServiceName (caseTable : Char → Char) (service : String) : String :=
  String.mk ((stringsToLower caseTable service).data.takeWhile (fun c => c != '-'))

/-- The version of section 4.5 of the specification: the lower-cased `Service` string after its
first `-`, empty when it has none. -/
def specServiceVersion (caseTable : Char → Char) (service : String) : String :=
  String.mk (((stringsToLower caseTable service).data.dropWhile (fun c => c != '-')).drop 1)

/-- The number of `-` in the lower-cased `Service` string. -/
def dashCount (caseTable : Char → Char) (service : String) : Nat :=
  (stringsToLower caseTable service).data.count '-'

/-- Every field that is set in `f` has the same value in `g`. -/
def keepsSetFields (f g : Filters) : Prop :=
  (f.InstanceTypeBase ≠ none → g.InstanceTypeBase = f.InstanceTypeBase) ∧
  (f.Flexible ≠ none → g.Flexible = f.Flexible) ∧
  (f.Emr ≠ none → g.Emr = f.Emr) ∧
  (f.Service ≠ none → g.Service = f.Service) ∧
  (f.BareMetal ≠ none → g.BareMetal = f.BareMetal) ∧
  (f.Fpga ≠ none → g.Fpga = f.Fpga) ∧
  (f.CPUArchitecture ≠ none → g.CPUArchitecture = f.CPUArchitecture) ∧
  (f.GpusRange ≠ none → g.GpusRange = f.GpusRange) ∧
  (f.VCpusRange ≠ none → g.VCpusRange = f.VCpusRange) ∧
  (f.MemoryRange ≠ none → g.MemoryRange = f.MemoryRange) ∧
  (f.AllowList ≠ none → g.AllowList = f.AllowList) ∧
  (f.DenyList ≠ none → g.DenyList = f.DenyList)

instance (f g : Filters) : Decidable (keepsSetFields f g) := by
  unfold keepsSetFields; infer_instance

/-- Every field that is set in `f`, other than `InstanceTypeBase`, has the same value in `g`. -/
def keepsSetFieldsButBase (f g : Filters) : Prop :=
  (f.Flexible ≠ none → g.Flexible = f.Flexible) ∧
  (f.Emr ≠ none → g.Emr = f.Emr) ∧
  (f.Service ≠ none → g.Service = f.Service) ∧
  (f.BareMetal ≠ none → g.BareMetal = f.BareMetal) ∧
  (f.Fpga ≠ none → g.Fpga = f.Fpga) ∧
  (f.CPUArchitecture ≠ none → g.CPUArchitecture = f.CPUArchitecture) ∧
  (f.GpusRange ≠ none → g.GpusRange = f.GpusRange) ∧
  (f.VCpusRange ≠ none → g.VCpusRange = f.VCpusRange) ∧
  (f.MemoryRange ≠ none → g.MemoryRange = f.MemoryRange) ∧
  (f.AllowList ≠ none → g.AllowList = f.AllowList) ∧
  (f.DenyList ≠ none → g.DenyList = f.DenyList)

instance (f g : Filters) : Decidable (keepsSetFieldsButBase f g) := by
  unfold keepsSetFieldsButBase; infer_instance

/-- A boolean field is set to `true`, the value of its type that is not the zero value. -/
def nonZeroBool (v : Option Bool) : Prop := v = some true

/-- A string field is set to a non-empty string. -/
def nonZeroString (v : Option String) : Prop := ∃ s, v = some s ∧ s ≠ ""

/-- An integer range field is set and both its bounds differ from 0. -/
def nonZeroIntRange (v : Option IntRangeFilter) : Prop :=
  ∃ r, v = some r ∧ r.LowerBound ≠ 0 ∧ r.UpperBound ≠ 0

/-- A byte-quantity range field is set and both its bounds differ from 0. -/
def nonZeroByteRange (v : Option ByteQuantityRangeFilter) : Prop :=
  ∃ r, v = some r ∧ r.LowerBound.Quantity ≠ 0 ∧ r.UpperBound.Quantity ≠ 0

/-- Every field that is set in `f` to a value without a zero component, and every pattern field
that is set in `f`, has the same value in `g`. -/
def keepsNonZeroFields (f g : Filters) : Prop :=
  (nonZeroString f.InstanceTypeBase → g.InstanceTypeBase = f.InstanceTypeBase) ∧
  (nonZeroBool f.Flexible → g.Flexible = f.Flexible) ∧
  (nonZeroBool f.Emr → g.Emr = f.Emr) ∧
  (nonZeroString f.Service → g.Service = f.Service) ∧
  (nonZeroBool f.BareMetal → g.BareMetal = f.BareMetal) ∧
  (nonZeroBool f.Fpga → g.Fpga = f.Fpga) ∧
  (nonZeroString f.CPUArchitecture → g.CPUArchitecture = f.CPUArchitecture) ∧
  (nonZeroIntRange f.GpusRange → g.GpusRange = f.GpusRange) ∧
  (nonZeroIntRange f.VCpusRange → g.VCpusRange = f.VCpusRange) ∧
  (nonZeroByteRange f.MemoryRange → g.MemoryRange = f.MemoryRange) ∧
  (f.AllowList ≠ none → g.AllowList = f.AllowList) ∧
  (f.DenyList ≠ none → g.DenyList = f.DenyList)

/-- Every field that is unset in `f` has in `g` the value it has in `cand`. -/
def takesUnsetFields (f cand g : Filters) : Prop :=
  (f.InstanceTypeBase = none → g.InstanceTypeBase = cand.InstanceTypeBase) ∧
  (f.Flexible = none → g.Flexible = cand.Flexible) ∧
  (f.Emr = none → g.Emr = cand.Emr) ∧
  (f.Service = none → g.Service = cand.Service) ∧
  (f.BareMetal = none → g.BareMetal = cand.BareMetal) ∧
  (f.Fpga = none → g.Fpga = cand.Fpga) ∧
  (f.CPUArchitecture = none → g.CPUArchitecture = cand.CPUArchitecture) ∧
  (f.GpusRange = none → g.GpusRange = cand.GpusRange) ∧
  (f.VCpusRange = none → g.VCpusRange = cand.VCpusRange) ∧
  (f.MemoryRange = none → g.MemoryRange = cand.MemoryRange) ∧
  (f.AllowList = none → g.AllowList = cand.AllowList) ∧
  (f.DenyList = none → g.DenyList = cand.DenyList)

instance (f cand g : Filters) : Decidable (takesUnsetFields f cand g) := by
  unfold takesUnsetFields; infer_instance

/-- A catalog record the transform can read without a fault: processor info with a non-empty
architecture list, memory info with a size, vCPU info with a default count. -/
def wellFormedRecord (info : InstanceTypeInfo) : Prop :=
  (∃ p, info.ProcessorInfo = some p ∧ p.SupportedArchitectures ≠ []) ∧
  (∃ m size, info.MemoryInfo = some m ∧ m.SizeInMiB = some size) ∧
  (∃ v count, info.VCpuInfo = some v ∧ v.DefaultVCpus = some count)

/-- The catalog lookup for `name` returns an output with no instance type, and no error. -/
def lookupFindsNothing (itf : Selector) (name : String) : Prop :=
  ∃ output, itf.EC2.DescribeInstanceTypes name = (some output, none) ∧
    output.InstanceTypes = []

/-- The error of line 46 of aggregates.go for the instance type `name`. -/
def notFoundError (name : String) : Error :=
  Error.errorf ("error instance type " ++ name ++ " is not a valid instance type")

/-- The `round` of the specification on the quotient `num / den` of two integers, `den`
positive: the nearest integer, a half rounded up. -/
def specRound (num den : Int) : Int :=
  (2 * num + den) / (2 * den)

/-- Two Filters agree in every field other than `Service`. -/
def agreeButService (f g : Filters) : Prop :=
  f.InstanceTypeBase = g.InstanceTypeBase ∧ f.Flexible = g.Flexible ∧ f.Emr = g.Emr ∧
  f.BareMetal = g.BareMetal ∧ f.Fpga = g.Fpga ∧ f.CPUArchitecture = g.CPUArchitecture ∧
  f.GpusRange = g.GpusRange ∧ f.VCpusRange = g.VCpusRange ∧ f.MemoryRange = g.MemoryRange ∧
  f.AllowList = g.AllowList ∧ f.DenyList = g.DenyList

instance (f g : Filters) : Decidable (agreeButService f g) := by
  unfold agreeButService; infer_instance

/-- Two Filters agree in every field other than `CPUArchitecture`, `BareMetal`, `Fpga`,
`AllowList` and `VCpusRange`, the five fields `TransformFlexible` writes. -/
def agreeButFlexibleDefaults (f g : Filters) : Prop :=
  f.InstanceTypeBase = g.InstanceTypeBase ∧ f.Flexible = g.Flexible ∧ f.Emr = g.Emr ∧
  f.Service = g.Service ∧ f.GpusRange = g.GpusRange ∧ f.MemoryRange = g.MemoryRange ∧
  f.DenyList = g.DenyList

instance (f g : Filters) : Decidable (agreeButFlexibleDefaults f g) := by
  unfold agreeButFlexibleDefaults; infer_instance

/-- Two Filters agree in every field other than `AllowList`. -/
def agreeButAllowList (f g : Filters) : Prop :=
  f.InstanceTypeBase = g.InstanceTypeBase ∧ f.Flexible = g.Flexible ∧ f.Emr = g.Emr ∧
  f.Service = g.Service ∧ f.BareMetal = g.BareMetal ∧ f.Fpga = g.Fpga ∧
  f.CPUArchitecture = g.CPUArchitecture ∧ f.GpusRange = g.GpusRange ∧
  f.VCpusRange = g.VCpusRange ∧ f.MemoryRange = g.MemoryRange ∧ f.DenyList = g.DenyList

instance (f g : Filters) : Decidable (agreeButAllowList f g) := by
  unfold agreeButAllowList; infer_instance

/-- The filters `f` with `Service` set to the string `service`. -/
def withService (f : Filters) (service : String) : Filters :=
  { f with Service := some service }

/-- The sort column the specification reads from one token: the text before its first `:`, and
as mode the text after the `:` when the token has exactly one `:`, `asc` otherwise. -/
def specSortColumn (token : String) : SortColumn :=
  { Column := String.mk (token.data.takeWhile (fun c => c != ':'))
    Mode :=
      if token.data.count ':' = 1 then
        String.mk ((token.data.dropWhile (fun c => c != ':')).drop 1)
      else "asc" }

/-- A token `column` or `column:direction` of the sort specification of section 4.6. -/
structure SortToken where
  column : String
  direction : Option String
  deriving DecidableEq, Repr

/-- The text of a token: `column`, or `column:direction`. -/
def SortToken.text (t : SortToken) : List Char :=
  match t.direction with
  | none => t.column.data
  | some direction => t.column.data ++ ':' :: direction.data

/-- A token is well formed when neither its column nor its direction holds a `,` or a `:`. -/
def SortToken.wellFormed (t : SortToken) : Prop :=
  ',' ∉ t.column.data ∧ ':' ∉ t.column.data ∧
  ∀ direction, t.direction = some direction → ',' ∉ direction.data ∧ ':' ∉ direction.data

/-- The pair the specification assigns to a token: its column, and its direction or `asc`. -/
def SortToken.pair (t : SortToken) : SortColumn :=
  { Column := t.column, Mode := t.direction.getD "asc" }

/-- The pieces joined with `,` between them. -/
def joinWithCommas : List (List Char) → List Char
  | [] => []
  | [piece] => piece
  | piece :: next :: rest => piece ++ ',' :: joinWithCommas (next :: rest)

/-- The sort specification string made of the tokens, separated by commas. -/
def sortSpecText (tokens : List SortToken) : String :=
  String.mk (joinWithCommas (tokens.map SortToken.text))

/-! ## Concrete inputs -/

/-- The case table on the letters of Latin-1: `À`..`Þ`, but for `×`, go to `à`..`þ`, and every
other rune to itself. It stands for the tables of the standard library in the concrete inputs
below; an ASCII string does not consult it. -/
def latin1Table (r : Char) : Char :=
  if 0xC0 ≤ r.val ∧ r.val ≤ 0xDE ∧ r.val ≠ 0xD7 then Char.ofNat (r.toNat + 32) else r

/-- A preset that reports the version it is called with in `CPUArchitecture`. -/
def echoVersion : Service :=
  fun version => ({ CPUArchitecture := some version }, none)

/-- A registry made by `NewRegistry` with `echoVersion` registered as `eks`. -/
def eksRegistry : ServiceRegistry :=
  Register NewRegistry "eks" echoVersion

/-- A registry made by `NewRegistry` with `echoVersion` registered as `éks`. -/
def accentRegistry : ServiceRegistry :=
  Register NewRegistry "éks" echoVersion

/-- A preset that asks for bare metal and for 2 to 8 vCPUs. -/
def bareMetalPreset : Service :=
  fun _ => ({ BareMetal := some true,
              VCpusRange := some { LowerBound := 2, UpperBound := 8 } }, none)

/-- A registry made by `NewRegistry` with `bareMetalPreset` registered as `metal`. -/
def metalRegistry : ServiceRegistry :=
  Register NewRegistry "metal" bareMetalPreset

/-- Working filters that rule bare metal out and ask for at most 4 vCPUs. -/
def noBareMetal : Filters :=
  { Service := some "metal", BareMetal := some false,
    VCpusRange := some { LowerBound := 0, UpperBound := 4 } }

/-- A catalog record: 2 vCPUs, 8192 MiB, one architecture, no FPGA, no GPU. -/
def m5Large : InstanceTypeInfo :=
  { BareMetal := some false
    ProcessorInfo := some { SupportedArchitectures := [some "x86_64"] }
    FpgaInfo := none
    GpuInfo := none
    MemoryInfo := some { SizeInMiB := some 8192 }
    VCpuInfo := some { DefaultVCpus := some 2 } }

/-- A selector whose catalog knows `m5.large` only and answers without error. -/
def m5Catalog : Selector :=
  { EC2 := { DescribeInstanceTypes := fun name =>
      if name = "m5.large" then (some { InstanceTypes := [some m5Large] }, none)
      else (some { InstanceTypes := [] }, none) } }

/-- A pattern compiler that accepts every expression. -/
def acceptAll : String → Option Error := fun _ => none

/-- A selector whose catalog fails on every lookup. -/
def failingCatalog : Selector :=
  { EC2 := { DescribeInstanceTypes := fun _ => (none, some (Error.foreign "RequestError")) } }

/-- The filters the catalog `m5Catalog` derives from the base instance type `m5.large`. -/
def m5Expanded : Filters :=
  { BareMetal := some false, CPUArchitecture := some "x86_64", Fpga := some false
    GpusRange := some { LowerBound := 0, UpperBound := 0 }
    MemoryRange := some { LowerBound := { Quantity := 7372 }, UpperBound := { Quantity := 9830 } }
    VCpusRange := some { LowerBound := 1, UpperBound := 2 } }

/-- A pattern compiler that accepts the fixed expression of `TransformFlexible` and rejects
every other expression. -/
def acceptFlexibleOnly : String → Option Error :=
  fun expr => if expr = flexiblePattern then none else some (Error.foreign "error parsing regexp")

/-- A pattern compiler that rejects every expression. -/
def rejectAll : String → Option Error := fun _ => some (Error.foreign "error parsing regexp")

/-- A catalog record with 8 GPUs in two groups, FPGA info, 96 vCPUs and 1152 GiB. -/
def acceleratedRecord : InstanceTypeInfo :=
  { BareMetal := some false
    ProcessorInfo := some { SupportedArchitectures := [some "x86_64", some "i386"] }
    FpgaInfo := some { TotalFpgaMemoryInMiB := some 65536 }
    GpuInfo := some { Gpus := [4, 4] }
    MemoryInfo := some { SizeInMiB := some 1179648 }
    VCpuInfo := some { DefaultVCpus := some 96 } }

/-- A selector whose catalog answers every lookup with `acceleratedRecord`. -/
def acceleratedCatalog : Selector :=
  { EC2 := { DescribeInstanceTypes := fun _ =>
      (some { InstanceTypes := [some acceleratedRecord] }, none) } }

/-- A catalog record whose vCPU count is the `int64` 8 * 10 ^ 18; 8192 MiB, no FPGA, no GPU. -/
def hugeRecord : InstanceTypeInfo :=
  { BareMetal := some false
    ProcessorInfo := some { SupportedArchitectures := [some "x86_64"] }
    FpgaInfo := none
    GpuInfo := none
    MemoryInfo := some { SizeInMiB := some 8192 }
    VCpuInfo := some { DefaultVCpus := some 8000000000000000000 } }

/-- A selector whose catalog answers every lookup with `hugeRecord`. -/
def hugeCatalog : Selector :=
  { EC2 := { DescribeInstanceTypes := fun _ =>
      (some { InstanceTypes := [some hugeRecord] }, none) } }

/-- The filters the catalog `hugeCatalog` derives from a base instance type. -/
def hugeExpanded : Filters :=
  { BareMetal := some false, CPUArchitecture := some "x86_64", Fpga := some false
    GpusRange := some { LowerBound := 0, UpperBound := 0 }
    MemoryRange := some { LowerBound := { Quantity := 7372 }, UpperBound := { Quantity := 9830 } }
    VCpusRange :=
      some { LowerBound := 7200000000000000000, UpperBound := -9223372036854775808 } }

/-! # Theorems -/

/-! ## Splitting a string -/

theorem splitChars_ne_nil (sep : Char) (l : List Char) : splitChars sep l ≠ [] := by
  induction l with
  | nil => simp [splitChars]
  | cons c cs ih =>
    unfold splitChars
    split
    · simp
    · split <;> simp

theorem splitChars_cons_sep (sep : Char) (cs : List Char) :
    splitChars sep (sep :: cs) = [] :: splitChars sep cs := by
  simp [splitChars]

theorem splitChars_cons_ne (sep c : Char) (cs : List Char) (h : c ≠ sep) :
    splitChars sep (c :: cs)
      = (c :: (splitChars sep cs).headD []) :: (splitChars sep cs).tail := by
  have hne := splitChars_ne_nil sep cs
  rw [splitChars, if_neg h]
  cases hs : splitChars sep cs with
  | nil => exact absurd hs hne
  | cons piece rest => simp

theorem splitChars_length (sep : Char) (l : List Char) :
    (splitChars sep l).length = l.count sep + 1 := by
  induction l with
  | nil => simp [splitChars]
  | cons c cs ih =>
    by_cases h : c = sep
    · subst h; simp [splitChars_cons_sep, ih]
    · have hne := splitChars_ne_nil sep cs
      rw [splitChars_cons_ne sep c cs h, List.count_cons_of_ne (Ne.symm h), ← ih]
      cases hs : splitChars sep cs with
      | nil => exact absurd hs hne
      | cons piece rest => simp

theorem splitChars_head (sep : Char) (l : List Char) :
    (splitChars sep l).headD [] = l.takeWhile (fun c => c != sep) := by
  induction l with
  | nil => simp [splitChars]
  | cons c cs ih =>
    by_cases h : c = sep
    · subst h; simp [splitChars_cons_sep]
    · rw [splitChars_cons_ne sep c cs h, List.takeWhile_cons, ih]
      simp [h]

theorem splitChars_of_count_zero (sep : Char) (l : List Char) (h : l.count sep = 0) :
    splitChars sep l = [l] := by
  induction l with
  | nil => simp [splitChars]
  | cons c cs ih =>
    by_cases hc : c = sep
    · subst hc; simp at h
    · rw [List.count_cons_of_ne (Ne.symm hc)] at h
      rw [splitChars_cons_ne sep c cs hc, ih h]
      simp

theorem splitChars_tail (sep : Char) (l : List Char) (h : 0 < l.count sep) :
    (splitChars sep l).tail = splitChars sep ((l.dropWhile (fun c => c != sep)).drop 1) := by
  induction l with
  | nil => simp at h
  | cons c cs ih =>
    by_cases hc : c = sep
    · subst hc; simp [splitChars_cons_sep]
    · rw [List.count_cons_of_ne (Ne.symm hc)] at h
      rw [splitChars_cons_ne sep c cs hc, List.dropWhile_cons]
      simp [hc, ih h]

theorem count_dropWhile_drop (sep : Char) (l : List Char) (h : 0 < l.count sep) :
    ((l.dropWhile (fun c => c != sep)).drop 1).count sep + 1 = l.count sep := by
  induction l with
  | nil => simp at h
  | cons c cs ih =>
    by_cases hc : c = sep
    · subst hc; simp
    · rw [List.count_cons_of_ne (Ne.symm hc)] at h ⊢
      rw [List.dropWhile_cons]
      simpa [hc] using ih h

theorem dropWhile_of_count_zero (sep : Char) (l : List Char) (h : l.count sep = 0) :
    l.dropWhile (fun c => c != sep) = [] := by
  induction l with
  | nil => simp
  | cons c cs ih =>
    by_cases hc : c = sep
    · subst hc; simp at h
    · rw [List.count_cons_of_ne (Ne.symm hc)] at h
      rw [List.dropWhile_cons]
      simp [hc, ih h]

theorem serviceName_eq (caseTable : Char → Char) (service : String) :
    (serviceNameAndVersion caseTable service).1 = specServiceName caseTable service := by
  simp only [serviceNameAndVersion, stringsSplit, specServiceName]
  rw [← splitChars_head]
  cases h : splitChars '-' (stringsToLower caseTable service).data with
  | nil => exact absurd h (splitChars_ne_nil _ _)
  | cons a b => simp

theorem serviceVersion_eq (caseTable : Char → Char) (service : String)
    (h : dashCount caseTable service ≤ 1) :
    (serviceNameAndVersion caseTable service).2 = specServiceVersion caseTable service := by
  unfold dashCount at h
  simp only [serviceNameAndVersion, stringsSplit, specServiceVersion, List.length_map,
    splitChars_length]
  rcases Nat.eq_zero_or_pos ((stringsToLower caseTable service).data.count '-') with h0 | hpos
  · rw [h0, dropWhile_of_count_zero _ _ h0]
    simp
  · have h1 : (stringsToLower caseTable service).data.count '-' = 1 := by omega
    have hrest := count_dropWhile_drop '-' _ hpos
    have hz : ((List.dropWhile (fun c => c != '-')
        (stringsToLower caseTable service).data).drop 1).count '-' = 0 := by omega
    have htail := (splitChars_tail '-' _ hpos).trans (splitChars_of_count_zero _ _ hz)
    rw [h1]
    cases hs : splitChars '-' (stringsToLower caseTable service).data with
    | nil => exact absurd hs (splitChars_ne_nil _ _)
    | cons a b =>
      rw [hs] at htail
      simp only [List.tail_cons] at htail
      subst htail
      simp

theorem serviceVersion_of_two_dashes (caseTable : Char → Char) (service : String)
    (h : 2 ≤ dashCount caseTable service) :
    (serviceNameAndVersion caseTable service).2 = "" := by
  unfold dashCount at h
  simp only [serviceNameAndVersion, stringsSplit, List.length_map, splitChars_length]
  rw [if_neg (by omega)]

/-! ## The service registry -/

/-- On a string of ASCII runes `strings.ToLower` does not consult the case tables. -/
theorem stringsToLower_of_ascii (table1 table2 : Char → Char) (s : String)
    (h : ∀ c ∈ s.data, c.val ≤ 0x7F) : stringsToLower table1 s = stringsToLower table2 s := by
  have hmap : s.data.map (unicodeToLower table1) = s.data.map (unicodeToLower table2) := by
    apply List.map_congr_left
    intro c hc
    simp only [unicodeToLower, if_pos (h c hc)]
  simp only [stringsToLower, hmap]

/-- On a `Service` string of ASCII runes `ExecuteTransforms` does not depend on the case
tables. -/
theorem executeTransforms_of_ascii (table1 table2 : Char → Char) (sr : ServiceRegistry)
    (f : Filters) (h : ∀ service, f.Service = some service → ∀ c ∈ service.data, c.val ≤ 0x7F) :
    ExecuteTransforms table1 sr f = ExecuteTransforms table2 sr f := by
  unfold ExecuteTransforms
  cases hs : f.Service with
  | none => rfl
  | some service =>
    simp only [serviceNameAndVersion, stringsToLower_of_ascii table1 table2 service (h service hs)]

theorem specServiceVersion_of_no_dash (caseTable : Char → Char) (service : String)
    (h : dashCount caseTable service = 0) : specServiceVersion caseTable service = "" := by
  unfold dashCount at h
  simp only [specServiceVersion, dropWhile_of_count_zero _ _ h, List.drop_nil]

theorem serviceVersion_cases (caseTable : Char → Char) (service : String) :
    (serviceNameAndVersion caseTable service).2
      = if dashCount caseTable service = 1 then specServiceVersion caseTable service else "" := by
  by_cases h1 : dashCount caseTable service = 1
  · rw [if_pos h1, serviceVersion_eq caseTable service (by omega)]
  · rw [if_neg h1]
    rcases Nat.eq_zero_or_pos (dashCount caseTable service) with h0 | hpos
    · rw [serviceVersion_eq caseTable service (by omega),
        specServiceVersion_of_no_dash caseTable service h0]
    · exact serviceVersion_of_two_dashes caseTable service (by omega)

/-- What `ExecuteTransforms` does with a `Service` string, in the words of section 4.5: it
looks up the part of the lower-cased string before its first `-`; an unknown name gives the
error that names it; a known preset is called with the part after the `-` when the string has
exactly one `-` and with the empty version otherwise; the error of the preset is returned with
the input, and its candidate is merged into the input. -/
theorem executeTransforms_resolution (caseTable : Char → Char) (sr : ServiceRegistry)
    (f : Filters) (service : String) (hs : f.Service = some service) :
    ExecuteTransforms caseTable sr f =
      match sr.lookup (specServiceName caseTable service) with
      | none =>
        (f, some (Error.errorf
          ("Service " ++ specServiceName caseTable service ++ " is not registered")))
      | some preset =>
        match preset (if dashCount caseTable service = 1 then
            specServiceVersion caseTable service else "") with
        | (_, some err) => (f, some err)
        | (cand, none) => mergoMerge f cand := by
  simp only [ExecuteTransforms, hs, applyService, serviceName_eq, serviceVersion_cases]
  cases sr.lookup (specServiceName caseTable service) with
  | none => rfl
  | some preset =>
    simp only
    rcases preset (if dashCount caseTable service = 1 then
        specServiceVersion caseTable service else "") with ⟨cand, err⟩
    cases err with
    | some e => rfl
    | none => rfl

/-- C1 (the code at the failing input): the string `eks-1.21-beta` has the part `eks` before
its first `-` and the part `1.21-beta` after it, and the registry `eksRegistry` holds under
`eks` the preset `echoVersion`, which reports the version it is called with; yet
`ExecuteTransforms` parses the empty version and the preset reports the empty version, where
the claim, and the comment of lines 52-53 of services.go, have it called with `1.21-beta`. With
at most one `-` the parse is the one of the claim: `eks-1.21` gives `eks` and `1.21`, and `emr`
gives `emr` and the empty version. -/
theorem C1_version_dropped_at_second_dash (caseTable : Char → Char) :
    specServiceName caseTable "eks-1.21-beta" = "eks" ∧
    specServiceVersion caseTable "eks-1.21-beta" = "1.21-beta" ∧
    eksRegistry.lookup "eks" = some echoVersion ∧
    echoVersion "1.21-beta" = ({ CPUArchitecture := some "1.21-beta" }, none) ∧
    serviceNameAndVersion caseTable "eks-1.21-beta" = ("eks", "") ∧
    ExecuteTransforms caseTable eksRegistry { Service := some "eks-1.21-beta" }
      = ({ Service := some "eks-1.21-beta", CPUArchitecture := some "" }, none) ∧
    serviceNameAndVersion caseTable "eks-1.21" = ("eks", "1.21") ∧
    serviceNameAndVersion caseTable "emr" = ("emr", "") :=
  ⟨rfl, rfl, rfl, rfl, rfl, rfl, rfl, rfl⟩

theorem executeTransforms_of_preset (caseTable : Char → Char) (sr : ServiceRegistry)
    (f cand : Filters)
    (service : String) (preset : Service) (hs : f.Service = some service)
    (hreg : sr.lookup (serviceNameAndVersion caseTable service).1 = some preset)
    (hcand : preset (serviceNameAndVersion caseTable service).2 = (cand, none)) :
    ExecuteTransforms caseTable sr f = mergoMerge f cand := by
  simp only [ExecuteTransforms, hs, applyService, hreg, hcand]
  rfl

/-- C2 (as stated, refuted): the working filters `noBareMetal` name the registered service
`metal`, whose preset succeeds, and set `BareMetal` to false and `VCpusRange` to 0..4; the
result of `ExecuteTransforms` has `BareMetal` true and `VCpusRange` 2..4, so two fields that
were set do not keep their values. -/
theorem C2_counterexample :
    noBareMetal.BareMetal = some false ∧
    noBareMetal.VCpusRange = some { LowerBound := 0, UpperBound := 4 } ∧
    (ExecuteTransforms latin1Table metalRegistry noBareMetal).2 = none ∧
    (ExecuteTransforms latin1Table metalRegistry noBareMetal).1.BareMetal = some true ∧
    (ExecuteTransforms latin1Table metalRegistry noBareMetal).1.VCpusRange
      = some { LowerBound := 2, UpperBound := 4 } ∧
    ¬ keepsSetFields noBareMetal (ExecuteTransforms latin1Table metalRegistry noBareMetal).1 := by
  decide

/-- C2 (amended): for every registry, every working Filters with a registered Service and every
candidate Filters returned by the preset, each field that is set in the working Filters to a
value without a zero component (a boolean true, a non-empty string, a range with both bounds
different from 0) and each pattern field that is set has exactly the same value in the result
of `ExecuteTransforms`, whatever the candidate holds for it. -/
theorem C2_set_fields_kept (caseTable : Char → Char) (sr : ServiceRegistry) (f cand : Filters)
    (service : String)
    (preset : Service) (hs : f.Service = some service)
    (hreg : sr.lookup (serviceNameAndVersion caseTable service).1 = some preset)
    (hcand : preset (serviceNameAndVersion caseTable service).2 = (cand, none)) :
    keepsNonZeroFields f (ExecuteTransforms caseTable sr f).1 := by
  rw [executeTransforms_of_preset caseTable sr f cand service preset hs hreg hcand]
  simp only [keepsNonZeroFields, mergoMerge, nonZeroBool, nonZeroString, nonZeroIntRange,
    nonZeroByteRange]
  refine ⟨?_, ?_, ?_, ?_, ?_, ?_, ?_, ?_, ?_, ?_, ?_, ?_⟩
  · rintro ⟨s, h, hne⟩; rw [h]; cases cand.InstanceTypeBase <;> simp [mergePtr, mergeString, hne]
  · intro h; rw [h]; cases cand.Flexible <;> simp [mergePtr, mergeBool]
  · intro h; rw [h]; cases cand.Emr <;> simp [mergePtr, mergeBool]
  · rintro ⟨s, h, hne⟩; rw [h]; cases cand.Service <;> simp [mergePtr, mergeString, hne]
  · intro h; rw [h]; cases cand.BareMetal <;> simp [mergePtr, mergeBool]
  · intro h; rw [h]; cases cand.Fpga <;> simp [mergePtr, mergeBool]
  · rintro ⟨s, h, hne⟩; rw [h]; cases cand.CPUArchitecture <;> simp [mergePtr, mergeString, hne]
  · rintro ⟨r, h, hl, hu⟩; rw [h]
    cases cand.GpusRange <;> simp [mergePtr, mergeIntRange, mergeInt, hl, hu]
  · rintro ⟨r, h, hl, hu⟩; rw [h]
    cases cand.VCpusRange <;> simp [mergePtr, mergeIntRange, mergeInt, hl, hu]
  · rintro ⟨r, h, hl, hu⟩; rw [h]
    cases cand.MemoryRange <;>
      simp [mergePtr, mergeByteRange, mergeByteQuantity, mergeUint, hl, hu]
  · intro h
    cases hf : f.AllowList with
    | none => exact absurd hf h
    | some r => cases cand.AllowList <;> simp [mergePtr, mergeRegexp]
  · intro h
    cases hf : f.DenyList with
    | none => exact absurd hf h
    | some r => cases cand.DenyList <;> simp [mergePtr, mergeRegexp]

/-- C2 (witness): the amended statement at working filters that ask the service `metal` for
bare metal and for 1 to 4 vCPUs. -/
theorem C2_set_fields_kept_witness :
    keepsNonZeroFields
      { Service := some "metal", BareMetal := some true,
        VCpusRange := some { LowerBound := 1, UpperBound := 4 } }
      (ExecuteTransforms latin1Table metalRegistry
        { Service := some "metal", BareMetal := some true,
          VCpusRange := some { LowerBound := 1, UpperBound := 4 } }).1 :=
  C2_set_fields_kept latin1Table metalRegistry _
    { BareMetal := some true, VCpusRange := some { LowerBound := 2, UpperBound := 8 } }
    "metal" bareMetalPreset rfl rfl rfl

/-- C3: for every registry, every working Filters with a registered Service whose preset
succeeds with a candidate, `ExecuteTransforms` succeeds, and every field that is unset in the
working Filters holds the candidate's value in the result (so it stays unset when the
candidate's field is unset too). -/
theorem C3_unset_fields_filled (caseTable : Char → Char) (sr : ServiceRegistry)
    (f cand : Filters) (service : String)
    (preset : Service) (hs : f.Service = some service)
    (hreg : sr.lookup (serviceNameAndVersion caseTable service).1 = some preset)
    (hcand : preset (serviceNameAndVersion caseTable service).2 = (cand, none)) :
    (ExecuteTransforms caseTable sr f).2 = none ∧
    takesUnsetFields f cand (ExecuteTransforms caseTable sr f).1 := by
  rw [executeTransforms_of_preset caseTable sr f cand service preset hs hreg hcand]
  refine ⟨rfl, ?_⟩
  simp only [takesUnsetFields, mergoMerge]
  refine ⟨?_, ?_, ?_, ?_, ?_, ?_, ?_, ?_, ?_, ?_, ?_, ?_⟩ <;>
    · intro h
      rw [h]
      simp only [mergePtr]
      split <;> simp_all

/-- C3 (witness): working filters that only name the service `eks-1.21` leave
`CPUArchitecture` unset, and the preset `echoVersion` registered as `eks` fills it. -/
theorem C3_unset_fields_filled_witness :
    (ExecuteTransforms latin1Table eksRegistry { Service := some "eks-1.21" }).2 = none ∧
    takesUnsetFields { Service := some "eks-1.21" } { CPUArchitecture := some "1.21" }
      (ExecuteTransforms latin1Table eksRegistry { Service := some "eks-1.21" }).1 :=
  C3_unset_fields_filled latin1Table eksRegistry { Service := some "eks-1.21" }
    { CPUArchitecture := some "1.21" } "eks-1.21" echoVersion rfl rfl rfl

/-- C8 (the code at the failing input): after `Register("EKS", p)` on a registry made by
`NewRegistry` the preset is stored under the key `EKS` as given, and `ExecuteTransforms` finds
no service for `Service = "eks"`, nor for `Service = "EKS"`, since it looks up the lower-cased
name. -/
theorem C8_register_keeps_letter_case (caseTable : Char → Char) :
    (Register NewRegistry "EKS" echoVersion).lookup "EKS" = some echoVersion ∧
    (Register NewRegistry "EKS" echoVersion).lookup (stringsToLower caseTable "EKS") = none ∧
    ExecuteTransforms caseTable (Register NewRegistry "EKS" echoVersion)
        { Service := some "eks" }
      = ({ Service := some "eks" }, some (Error.errorf "Service eks is not registered")) ∧
    ExecuteTransforms caseTable (Register NewRegistry "EKS" echoVersion)
        { Service := some "EKS" }
      = ({ Service := some "EKS" }, some (Error.errorf "Service eks is not registered")) :=
  ⟨rfl, rfl, rfl, rfl⟩

/-- C9: for every registry and every Filters `f` whose Service is set and whose parsed service
name (the lower-cased string up to its first `-`) is not a key of the registry,
`ExecuteTransforms` returns `f` itself together with the error
`Service <name> is not registered`, which names the parsed service name. -/
theorem C9_unknown_service (caseTable : Char → Char) (sr : ServiceRegistry) (f : Filters)
    (service : String) (hs : f.Service = some service)
    (hunknown : sr.lookup (specServiceName caseTable service) = none) :
    ExecuteTransforms caseTable sr f
      = (f, some (Error.errorf
          ("Service " ++ specServiceName caseTable service ++ " is not registered"))) := by
  simp only [ExecuteTransforms, hs, applyService, serviceName_eq, hunknown]

/-- C9 (witness): the service `bogus` on the registry `eksRegistry`, which has no such key. -/
theorem C9_unknown_service_witness :
    ExecuteTransforms latin1Table eksRegistry { Service := some "bogus", Fpga := some false }
      = ({ Service := some "bogus", Fpga := some false },
          some (Error.errorf
            ("Service " ++ specServiceName latin1Table "bogus" ++ " is not registered"))) :=
  C9_unknown_service latin1Table eksRegistry { Service := some "bogus", Fpga := some false }
    "bogus" rfl rfl

/-! ## The transforms -/

theorem keepsSetFields_refl (f : Filters) : keepsSetFields f f := by
  simp [keepsSetFields]

theorem keepsSetFields_trans {f g h : Filters} (hfg : keepsSetFields f g)
    (hgh : keepsSetFields g h) : keepsSetFields f h := by
  obtain ⟨a1, a2, a3, a4, a5, a6, a7, a8, a9, a10, a11, a12⟩ := hfg
  obtain ⟨b1, b2, b3, b4, b5, b6, b7, b8, b9, b10, b11, b12⟩ := hgh
  refine ⟨?_, ?_, ?_, ?_, ?_, ?_, ?_, ?_, ?_, ?_, ?_, ?_⟩
  · intro hx; rw [← a1 hx]; exact b1 (by rw [a1 hx]; exact hx)
  · intro hx; rw [← a2 hx]; exact b2 (by rw [a2 hx]; exact hx)
  · intro hx; rw [← a3 hx]; exact b3 (by rw [a3 hx]; exact hx)
  · intro hx; rw [← a4 hx]; exact b4 (by rw [a4 hx]; exact hx)
  · intro hx; rw [← a5 hx]; exact b5 (by rw [a5 hx]; exact hx)
  · intro hx; rw [← a6 hx]; exact b6 (by rw [a6 hx]; exact hx)
  · intro hx; rw [← a7 hx]; exact b7 (by rw [a7 hx]; exact hx)
  · intro hx; rw [← a8 hx]; exact b8 (by rw [a8 hx]; exact hx)
  · intro hx; rw [← a9 hx]; exact b9 (by rw [a9 hx]; exact hx)
  · intro hx; rw [← a10 hx]; exact b10 (by rw [a10 hx]; exact hx)
  · intro hx; rw [← a11 hx]; exact b11 (by rw [a11 hx]; exact hx)
  · intro hx; rw [← a12 hx]; exact b12 (by rw [a12 hx]; exact hx)

theorem deriveBareMetal_keeps {info : Option InstanceTypeInfo} {f g : Filters}
    (h : deriveBareMetal info f = some g) : keepsSetFields f g := by
  unfold deriveBareMetal at h
  split at h
  · cases info with
    | none => simp at h
    | some i =>
      simp at h
      subst h
      simp_all [keepsSetFields]
  · simp at h
    subst h
    exact keepsSetFields_refl f

theorem deriveCPUArchitecture_keeps {info : Option InstanceTypeInfo} {f g : Filters}
    (h : deriveCPUArchitecture info f = some g) : keepsSetFields f g := by
  unfold deriveCPUArchitecture at h
  split at h
  · simp only [Option.bind_eq_bind, Option.pure_def, Option.bind_eq_some] at h
    obtain ⟨i, -, p, -, a, -, h⟩ := h
    simp at h
    subst h
    simp_all [keepsSetFields]
  · simp at h
    subst h
    exact keepsSetFields_refl f

theorem deriveFpga_keeps {info : Option InstanceTypeInfo} {f g : Filters}
    (h : deriveFpga info f = some g) : keepsSetFields f g := by
  unfold deriveFpga at h
  split at h
  · simp only [Option.bind_eq_bind, Option.pure_def, Option.bind_eq_some] at h
    obtain ⟨i, -, h⟩ := h
    simp at h
    subst h
    simp_all [keepsSetFields]
  · simp at h
    subst h
    exact keepsSetFields_refl f

theorem deriveGpusRange_keeps {info : Option InstanceTypeInfo} {f g : Filters}
    (h : deriveGpusRange info f = some g) : keepsSetFields f g := by
  unfold deriveGpusRange at h
  split at h
  · simp only [Option.bind_eq_bind, Option.pure_def, Option.bind_eq_some] at h
    obtain ⟨i, -, c, -, h⟩ := h
    simp at h
    subst h
    simp_all [keepsSetFields]
  · simp at h
    subst h
    exact keepsSetFields_refl f

theorem deriveMemoryRange_keeps {info : Option InstanceTypeInfo} {f g : Filters}
    (h : deriveMemoryRange info f = some g) : keepsSetFields f g := by
  unfold deriveMemoryRange at h
  split at h
  · simp only [Option.bind_eq_bind, Option.pure_def, Option.bind_eq_some] at h
    obtain ⟨i, -, m, -, sz, -, h⟩ := h
    simp at h
    subst h
    simp_all [keepsSetFields]
  · simp at h
    subst h
    exact keepsSetFields_refl f

theorem deriveVCpusRange_keeps {info : Option InstanceTypeInfo} {f g : Filters}
    (h : deriveVCpusRange info f = some g) : keepsSetFields f g := by
  unfold deriveVCpusRange at h
  split at h
  · simp only [Option.bind_eq_bind, Option.pure_def, Option.bind_eq_some] at h
    obtain ⟨i, -, v, -, d, -, h⟩ := h
    simp at h
    subst h
    simp_all [keepsSetFields]
  · simp at h
    subst h
    exact keepsSetFields_refl f

theorem deriveFromInstanceType_eq_some {info : Option InstanceTypeInfo} {f g : Filters}
    {err : Option Error} (h : deriveFromInstanceType info f = some (g, err)) :
    ∃ f1 f2 f3 f4 f5 f6, deriveBareMetal info f = some f1 ∧
      deriveCPUArchitecture info f1 = some f2 ∧ deriveFpga info f2 = some f3 ∧
      deriveGpusRange info f3 = some f4 ∧ deriveMemoryRange info f4 = some f5 ∧
      deriveVCpusRange info f5 = some f6 ∧ g = { f6 with InstanceTypeBase := none } ∧
      err = none := by
  simp only [deriveFromInstanceType, Option.bind_eq_bind, Option.pure_def,
    Option.bind_eq_some, Option.some.injEq, Prod.mk.injEq] at h
  obtain ⟨f1, h1, f2, h2, f3, h3, f4, h4, f5, h5, f6, h6, hg, he⟩ := h
  exact ⟨f1, f2, f3, f4, f5, f6, h1, h2, h3, h4, h5, h6, hg.symm, he.symm⟩

theorem deriveFromInstanceType_keeps {info : Option InstanceTypeInfo} {f g : Filters}
    {err : Option Error} (h : deriveFromInstanceType info f = some (g, err)) :
    keepsSetFieldsButBase f g ∧ g.InstanceTypeBase = none ∧ err = none := by
  obtain ⟨f1, f2, f3, f4, f5, f6, h1, h2, h3, h4, h5, h6, hg, he⟩ :=
    deriveFromInstanceType_eq_some h
  have hk : keepsSetFields f f6 :=
    keepsSetFields_trans (deriveBareMetal_keeps h1)
      (keepsSetFields_trans (deriveCPUArchitecture_keeps h2)
        (keepsSetFields_trans (deriveFpga_keeps h3)
          (keepsSetFields_trans (deriveGpusRange_keeps h4)
            (keepsSetFields_trans (deriveMemoryRange_keeps h5) (deriveVCpusRange_keeps h6)))))
  obtain ⟨-, k2, k3, k4, k5, k6, k7, k8, k9, k10, k11, k12⟩ := hk
  subst hg
  exact ⟨⟨k2, k3, k4, k5, k6, k7, k8, k9, k10, k11, k12⟩, rfl, he⟩

theorem transformFlexible_keeps (syntaxError : String → Option Error) (itf : Selector)
    (f : Filters) : keepsSetFields f (TransformFlexible syntaxError itf f).1 := by
  obtain ⟨base, flex, emr, svc, bm, fpga, arch, gpus, vcpus, mem, allow, deny⟩ := f
  cases flex with
  | none => simp [TransformFlexible, keepsSetFields]
  | some b =>
    cases hc : syntaxError flexiblePattern <;> cases arch <;> cases bm <;> cases fpga <;>
      cases allow <;> cases vcpus <;> cases mem <;>
      simp [TransformFlexible, keepsSetFields, regexpCompile, hc]

theorem transformEmr_keeps (syntaxError : String → Option Error) (itf : Selector)
    (f : Filters) : keepsSetFields f (TransformEmr syntaxError itf f).1 := by
  obtain ⟨base, flex, emr, svc, bm, fpga, arch, gpus, vcpus, mem, allow, deny⟩ := f
  cases emr with
  | none => simp [TransformEmr, keepsSetFields]
  | some b =>
    cases hc : syntaxError (String.intercalate "|" itRegexList) <;> cases allow <;>
      simp [TransformEmr, keepsSetFields, regexpCompile, hc]

theorem transformBaseInstanceType_cases (itf : Selector) (f g : Filters) (err : Option Error)
    (h : TransformBaseInstanceType itf f = some (g, err)) :
    (g = f ∧ (f.InstanceTypeBase = none ∨ err ≠ none)) ∨
    (f.InstanceTypeBase ≠ none ∧ ∃ info, deriveFromInstanceType info f = some (g, err)) := by
  unfold TransformBaseInstanceType at h
  split at h
  · left
    simp only [Option.some.injEq, Prod.mk.injEq] at h
    exact ⟨h.1.symm, Or.inl (by assumption)⟩
  · rename_i base hbase
    split at h
    · left
      simp only [Option.some.injEq, Prod.mk.injEq] at h
      refine ⟨h.1.symm, Or.inr ?_⟩
      rw [← h.2]; simp
    · simp at h
    · split at h
      · left
        simp only [Option.some.injEq, Prod.mk.injEq] at h
        refine ⟨h.1.symm, Or.inr ?_⟩
        rw [← h.2]; simp
      · right
        exact ⟨by simp [hbase], _, h⟩

/-- C5: for every input Filters `f`, every field that is set in `f` has the same value in the
Filters returned by `TransformFlexible` and by `TransformEmr` (whatever the pattern compiler
answers) and, `InstanceTypeBase` apart, in the Filters returned by `TransformBaseInstanceType`
(whatever the catalog answers); `TransformBaseInstanceType` returns `InstanceTypeBase` unset on
success and as in `f` with an error. `Filters{Flexible: true, CPUArchitecture: "arm64"}` still
has `CPUArchitecture` `arm64` after `TransformFlexible`. -/
theorem C5_set_fields_kept_by_transforms (syntaxError : String → Option Error)
    (itf : Selector) (f : Filters) :
    keepsSetFields f (TransformFlexible syntaxError itf f).1 ∧
    keepsSetFields f (TransformEmr syntaxError itf f).1 ∧
    (∀ g err, TransformBaseInstanceType itf f = some (g, err) →
      keepsSetFieldsButBase f g ∧
      (err = none → g.InstanceTypeBase = none) ∧
      (err ≠ none → g.InstanceTypeBase = f.InstanceTypeBase)) ∧
    (TransformFlexible syntaxError itf
      { Flexible := some true, CPUArchitecture := some "arm64" }).1.CPUArchitecture
        = some "arm64" := by
  refine ⟨transformFlexible_keeps _ _ _, transformEmr_keeps _ _ _, ?_, ?_⟩
  · intro g err h
    rcases transformBaseInstanceType_cases itf f g err h with ⟨hg, hcase⟩ | ⟨-, info, hd⟩
    · subst hg
      refine ⟨?_, ?_, fun _ => rfl⟩
      · simp [keepsSetFieldsButBase]
      · intro he
        rcases hcase with hb | hne
        · exact hb
        · exact absurd he hne
    · obtain ⟨hk, hb, he⟩ := deriveFromInstanceType_keeps hd
      exact ⟨hk, fun _ => hb, fun hne => absurd he hne⟩
  · have h := (transformFlexible_keeps syntaxError itf
      { Flexible := some true, CPUArchitecture := some "arm64" }).2.2.2.2.2.2.1
    exact h (by simp)

/-- C5 (witness): the catalog `m5Catalog` expands `m5.large` for filters that already ask for
`arm64`; the architecture is kept and `InstanceTypeBase` is cleared. -/
theorem C5_set_fields_kept_by_transforms_witness :
    keepsSetFieldsButBase
      { InstanceTypeBase := some "m5.large", CPUArchitecture := some "arm64" }
      { m5Expanded with CPUArchitecture := some "arm64" } ∧
    m5Expanded.InstanceTypeBase = none :=
  ⟨((C5_set_fields_kept_by_transforms acceptAll m5Catalog
      { InstanceTypeBase := some "m5.large", CPUArchitecture := some "arm64" }).2.2.1
      { m5Expanded with CPUArchitecture := some "arm64" } none (by decide)).1, rfl⟩

/-- C6: for every Filters `f` with `Flexible` set: if both `VCpusRange` and `MemoryRange` are
unset in `f`, `TransformFlexible` returns `VCpusRange = {4, 4}` and leaves `MemoryRange` unset
(given that `regexp.Compile` accepts the fixed expression of line 97 when `f.AllowList` is unset
and it is called); if either of the two is set in `f`, both are returned exactly as in `f`; so
`Filters{Flexible: true, MemoryRange: R}` leaves `VCpusRange` unset for every `R`. -/
theorem C6_flexible_joint_default (syntaxError : String → Option Error) (itf : Selector)
    (f : Filters) (hflex : f.Flexible ≠ none) :
    (f.VCpusRange = none ∧ f.MemoryRange = none →
      (f.AllowList = none → syntaxError flexiblePattern = none) →
      (TransformFlexible syntaxError itf f).1.VCpusRange
          = some { LowerBound := 4, UpperBound := 4 } ∧
        (TransformFlexible syntaxError itf f).1.MemoryRange = none ∧
        (TransformFlexible syntaxError itf f).2 = none) ∧
    (f.VCpusRange ≠ none ∨ f.MemoryRange ≠ none →
      (TransformFlexible syntaxError itf f).1.VCpusRange = f.VCpusRange ∧
        (TransformFlexible syntaxError itf f).1.MemoryRange = f.MemoryRange) ∧
    (∀ (b : Bool) (R : ByteQuantityRangeFilter),
      (TransformFlexible syntaxError itf
        { Flexible := some b, MemoryRange := some R }).1.VCpusRange = none) := by
  obtain ⟨base, flex, emr, svc, bm, fpga, arch, gpus, vcpus, mem, allow, deny⟩ := f
  cases flex with
  | none => exact absurd rfl hflex
  | some b =>
    refine ⟨?_, ?_, ?_⟩
    · rintro ⟨hv, hm⟩ hcompile
      simp only at hv hm hcompile
      subst hv hm
      cases allow with
      | none =>
        have hc := hcompile rfl
        cases arch <;> cases bm <;> cases fpga <;> simp [TransformFlexible, regexpCompile, hc]
      | some r =>
        cases arch <;> cases bm <;> cases fpga <;> simp [TransformFlexible]
    · intro h
      cases hc : syntaxError flexiblePattern <;> cases arch <;> cases bm <;> cases fpga <;>
        cases allow <;> cases vcpus <;> cases mem <;>
        simp_all [TransformFlexible, regexpCompile]
    · intro b' R
      cases hc : syntaxError flexiblePattern <;> simp [TransformFlexible, regexpCompile, hc]

/-- C6 (witness): `Filters{Flexible: true}` with a pattern compiler that accepts every
expression. -/
theorem C6_flexible_joint_default_witness :
    (TransformFlexible acceptAll m5Catalog { Flexible := some true }).1.VCpusRange
      = some { LowerBound := 4, UpperBound := 4 } ∧
    (TransformFlexible acceptAll m5Catalog { Flexible := some true }).1.MemoryRange = none ∧
    (TransformFlexible acceptAll m5Catalog { Flexible := some true }).2 = none :=
  (C6_flexible_joint_default acceptAll m5Catalog { Flexible := some true } (by decide)).1
    ⟨rfl, rfl⟩ (fun _ => rfl)

theorem transformFlexible_idem (syntaxError : String → Option Error) (itf : Selector)
    (f : Filters) :
    TransformFlexible syntaxError itf (TransformFlexible syntaxError itf f).1
      = TransformFlexible syntaxError itf f := by
  obtain ⟨base, flex, emr, svc, bm, fpga, arch, gpus, vcpus, mem, allow, deny⟩ := f
  cases flex with
  | none => simp [TransformFlexible]
  | some b =>
    cases hc : syntaxError flexiblePattern <;> cases arch <;> cases bm <;> cases fpga <;>
      cases allow <;> cases vcpus <;> cases mem <;>
      simp [TransformFlexible, regexpCompile, hc]

theorem transformEmr_idem (syntaxError : String → Option Error) (itf : Selector)
    (f : Filters) :
    TransformEmr syntaxError itf (TransformEmr syntaxError itf f).1
      = TransformEmr syntaxError itf f := by
  obtain ⟨base, flex, emr, svc, bm, fpga, arch, gpus, vcpus, mem, allow, deny⟩ := f
  cases emr with
  | none => simp [TransformEmr]
  | some b =>
    cases hc : syntaxError (String.intercalate "|" itRegexList) <;> cases allow <;>
      simp [TransformEmr, regexpCompile, hc]

theorem transformBaseInstanceType_of_unset (itf : Selector) (f : Filters)
    (h : f.InstanceTypeBase = none) : TransformBaseInstanceType itf f = some (f, none) := by
  simp [TransformBaseInstanceType, h]

/-- C7: each transform is idempotent on its own output: for every Filters `f`,
`TransformFlexible` applied to the Filters it returned for `f` returns the same Filters and the
same error as the first call, and so does `TransformEmr`; and for every catalog, when
`TransformBaseInstanceType` succeeds with output `g`, applying it to `g` with any catalog at
all returns `g` unchanged and no error, so the second call does not depend on a lookup. -/
theorem C7_transforms_idempotent (syntaxError : String → Option Error) (itf : Selector)
    (f : Filters) :
    TransformFlexible syntaxError itf (TransformFlexible syntaxError itf f).1
      = TransformFlexible syntaxError itf f ∧
    TransformEmr syntaxError itf (TransformEmr syntaxError itf f).1
      = TransformEmr syntaxError itf f ∧
    (∀ g, TransformBaseInstanceType itf f = some (g, none) →
      ∀ other : Selector, TransformBaseInstanceType other g = some (g, none)) := by
  refine ⟨transformFlexible_idem _ _ _, transformEmr_idem _ _ _, ?_⟩
  intro g h other
  apply transformBaseInstanceType_of_unset
  rcases transformBaseInstanceType_cases itf f g none h with ⟨hg, hcase⟩ | ⟨-, info, hd⟩
  · subst hg
    rcases hcase with hb | hne
    · exact hb
    · exact absurd rfl hne
  · exact (deriveFromInstanceType_keeps hd).2.1

/-- C7 (witness): the base instance type `m5.large` is expanded by the catalog `m5Catalog` to
`m5Expanded`, which a second call returns unchanged although its catalog fails on every
lookup. -/
theorem C7_transforms_idempotent_witness :
    TransformBaseInstanceType failingCatalog m5Expanded = some (m5Expanded, none) :=
  (C7_transforms_idempotent acceptAll m5Catalog
    { InstanceTypeBase := some "m5.large" }).2.2 m5Expanded (by decide) failingCatalog

theorem deriveFromInstanceType_of_wellFormed (info : InstanceTypeInfo) (f : Filters)
    (hw : wellFormedRecord info) :
    ∃ g, deriveFromInstanceType (some info) f = some (g, none) := by
  obtain ⟨⟨p, hp, harch⟩, ⟨m, size, hm, hsize⟩, ⟨v, count, hv, hcount⟩⟩ := hw
  obtain ⟨a, rest, hlist⟩ := List.exists_cons_of_ne_nil harch
  have h1 : ∃ f1, deriveBareMetal (some info) f = some f1 := by
    unfold deriveBareMetal; split <;> simp
  obtain ⟨f1, h1⟩ := h1
  have h2 : ∃ f2, deriveCPUArchitecture (some info) f1 = some f2 := by
    unfold deriveCPUArchitecture; split <;> simp [hp, hlist]
  obtain ⟨f2, h2⟩ := h2
  have h3 : ∃ f3, deriveFpga (some info) f2 = some f3 := by
    unfold deriveFpga; split <;> simp
  obtain ⟨f3, h3⟩ := h3
  have h4 : ∃ f4, deriveGpusRange (some info) f3 = some f4 := by
    unfold deriveGpusRange gpuCountOf getTotalGpusCount
    split
    · cases hg : info.GpuInfo <;> simp [hg]
    · simp
  obtain ⟨f4, h4⟩ := h4
  have h5 : ∃ f5, deriveMemoryRange (some info) f4 = some f5 := by
    unfold deriveMemoryRange; split <;> simp [hm, hsize]
  obtain ⟨f5, h5⟩ := h5
  have h6 : ∃ f6, deriveVCpusRange (some info) f5 = some f6 := by
    unfold deriveVCpusRange; split <;> simp [hv, hcount]
  obtain ⟨f6, h6⟩ := h6
  exact ⟨{ f6 with InstanceTypeBase := none }, by
    simp [deriveFromInstanceType, h1, h2, h3, h4, h5, h6]⟩

/-- C10: for every Filters with `InstanceTypeBase` set to `X`, `TransformBaseInstanceType`
returns an error if and only if the catalog lookup for `X` returns an error or finds no
such type; in the first case it returns the input Filters with exactly the error of the
catalog, in the second the input Filters with the not-found error of line 46, which names `X`;
and when the lookup returns a well-formed record and no error, the call returns without an
error. -/
theorem C10_base_instance_type_errors (itf : Selector) (f : Filters) (X : String)
    (hX : f.InstanceTypeBase = some X) :
    ((∃ g e, TransformBaseInstanceType itf f = some (g, some e)) ↔
      ((itf.EC2.DescribeInstanceTypes X).2 ≠ none ∨ lookupFindsNothing itf X)) ∧
    (∀ e, (itf.EC2.DescribeInstanceTypes X).2 = some e →
      TransformBaseInstanceType itf f = some (f, some e)) ∧
    (lookupFindsNothing itf X →
      TransformBaseInstanceType itf f = some (f, some (notFoundError X))) ∧
    (∀ output info rest, itf.EC2.DescribeInstanceTypes X = (some output, none) →
      output.InstanceTypes = some info :: rest → wellFormedRecord info →
      ∃ g, TransformBaseInstanceType itf f = some (g, none)) := by
  have herr : ∀ e, (itf.EC2.DescribeInstanceTypes X).2 = some e →
      TransformBaseInstanceType itf f = some (f, some e) := by
    intro e he
    rcases hd : itf.EC2.DescribeInstanceTypes X with ⟨out, err⟩
    rw [hd] at he
    simp only at he
    subst he
    simp only [TransformBaseInstanceType, hX, hd]
  have hnone : lookupFindsNothing itf X →
      TransformBaseInstanceType itf f = some (f, some (notFoundError X)) := by
    rintro ⟨output, hd, hl⟩
    simp only [TransformBaseInstanceType, hX, hd, hl, notFoundError]
  refine ⟨⟨?_, ?_⟩, herr, hnone, ?_⟩
  · rintro ⟨g, e, h⟩
    rcases hd : itf.EC2.DescribeInstanceTypes X with ⟨out, err⟩
    simp only [TransformBaseInstanceType, hX, hd] at h
    cases err with
    | some e' => left; simp
    | none =>
      right
      cases out with
      | none => simp at h
      | some output =>
        simp only at h
        cases hl : output.InstanceTypes with
        | nil => exact ⟨output, hd, hl⟩
        | cons info rest =>
          rw [hl] at h
          simp only at h
          have := (deriveFromInstanceType_keeps h).2.2
          simp at this
  · rintro (h | h)
    · cases he : (itf.EC2.DescribeInstanceTypes X).2 with
      | none => exact absurd he h
      | some e => exact ⟨f, e, herr e he⟩
    · exact ⟨f, notFoundError X, hnone h⟩
  · intro output info rest hd hl hw
    obtain ⟨g, hg⟩ := deriveFromInstanceType_of_wellFormed info f hw
    refine ⟨g, ?_⟩
    simp only [TransformBaseInstanceType, hX, hd, hl, hg]

/-- C10 (witness): the catalog `m5Catalog` returns no instance type for `t9.nano`, and the
transform returns the not-found error that names it. -/
theorem C10_base_instance_type_errors_witness :
    TransformBaseInstanceType m5Catalog { InstanceTypeBase := some "t9.nano" }
      = some ({ InstanceTypeBase := some "t9.nano" }, some (notFoundError "t9.nano")) :=
  (C10_base_instance_type_errors m5Catalog { InstanceTypeBase := some "t9.nano" } "t9.nano"
    rfl).2.2.1 ⟨{ InstanceTypes := [] }, rfl, rfl⟩

/-! ## float64 rounding -/

theorem roundDiv_mul_bounds (a b : Nat) (hb : 0 < b) :
    2 * (roundDiv a b * b) ≤ 2 * a + b ∧ 2 * a ≤ 2 * (roundDiv a b * b) + b := by
  have hdm := Nat.div_add_mod a b
  have hr := Nat.mod_lt a hb
  have hcomm : b * (a / b) = a / b * b := Nat.mul_comm _ _
  unfold roundDiv
  simp only []
  split
  · rename_i hup
    have : (a / b + 1) * b = a / b * b + b := by ring
    rw [this]
    omega
  · rename_i hdown
    omega

theorem excessBits_of_lt (fuel n : Nat) (h : n < 2 ^ 53) : excessBits fuel n = 0 := by
  cases fuel with
  | zero => rfl
  | succ k => rw [excessBits, if_pos h]

theorem excessBits_le (fuel : Nat) : ∀ (n j : Nat), n < 2 ^ (53 + j) → excessBits fuel n ≤ j := by
  induction fuel with
  | zero => intro n j _; simp [excessBits]
  | succ k ih =>
    intro n j h
    by_cases hlt : n < 2 ^ 53
    · rw [excessBits, if_pos hlt]
      exact Nat.zero_le j
    · rw [excessBits, if_neg hlt]
      cases j with
      | zero => exact absurd h hlt
      | succ j' =>
        have h2 : n / 2 < 2 ^ (53 + j') := by
          have : 2 ^ (53 + (j' + 1)) = 2 * 2 ^ (53 + j') := by ring
          rw [this] at h
          omega
        have := ih (n / 2) j' h2
        omega

theorem lt_two_pow_excessBits (fuel : Nat) :
    ∀ n : Nat, n < 2 ^ (53 + fuel) → n < 2 ^ (53 + excessBits fuel n) := by
  induction fuel with
  | zero => intro n h; simpa [excessBits] using h
  | succ k ih =>
    intro n h
    by_cases hlt : n < 2 ^ 53
    · rw [excessBits, if_pos hlt]
      exact hlt
    · rw [excessBits, if_neg hlt]
      have h2 : n / 2 < 2 ^ (53 + k) := by
        have : 2 ^ (53 + (k + 1)) = 2 * 2 ^ (53 + k) := by ring
        rw [this] at h
        omega
      have h3 := ih (n / 2) h2
      have : 2 ^ (53 + (excessBits k (n / 2) + 1)) = 2 * 2 ^ (53 + excessBits k (n / 2)) := by
        ring
      rw [this]
      omega

theorem roundSignificand_of_lt (n : Nat) (h : n < 2 ^ 53) : roundSignificand n = n := by
  simp [roundSignificand, excessBits_of_lt n n h, roundDiv, Nat.mod_one]

/-- What rounding to 53 significant bits does to `n`: the result is a multiple of a power of
two `t` that is within `t / 2` of `n`, and `n < 2 ^ 53 * t`. -/
theorem roundSignificand_spec (n : Nat) :
    ∃ s a : Nat, roundSignificand n = a * 2 ^ s ∧
      2 * roundSignificand n ≤ 2 * n + 2 ^ s ∧ 2 * n ≤ 2 * roundSignificand n + 2 ^ s ∧
      n < 2 ^ 53 * 2 ^ s ∧ ∀ j, n < 2 ^ (53 + j) → s ≤ j := by
  refine ⟨excessBits n n, roundDiv n (2 ^ excessBits n n), rfl, ?_, ?_, ?_, ?_⟩
  · exact (roundDiv_mul_bounds n _ (Nat.pos_pow_of_pos _ (by norm_num))).1
  · exact (roundDiv_mul_bounds n _ (Nat.pos_pow_of_pos _ (by norm_num))).2
  · rw [← pow_add]
    apply lt_two_pow_excessBits
    calc n < 2 ^ n := Nat.lt_two_pow n
      _ ≤ 2 ^ (53 + n) := Nat.pow_le_pow_right (by norm_num) (by omega)
  · intro j hj
    exact excessBits_le n n j hj

theorem mul_add_le_of_mul_lt {t a b : Nat} (h : a * t < b * t) : a * t + t ≤ b * t := by
  have hab : a < b := Nat.lt_of_mul_lt_mul_right h
  calc a * t + t = (a + 1) * t := by ring
    _ ≤ b * t := Nat.mul_le_mul_right t hab

/-- The bracket of a rounded product: when `lo` is a multiple of `2 ^ k`, within reach of
rounding from below, and `hi` is out of reach from above, the rounding of `n` lies in
`[lo, hi)`. The hypothesis `n < 2 ^ (53 + j)` with `j ≤ k` bounds the rounding unit. -/
theorem roundSignificand_bracket (n lo hi k j b : Nat) (hn : n < 2 ^ (53 + j)) (hjk : j ≤ k)
    (hlo : lo = b * 2 ^ k)
    (hreach : ∀ t : Nat, 0 < t → t ≤ 2 ^ j → n < 2 ^ 53 * t → 2 * lo < 2 * n + t)
    (hout : 2 * n + 2 ^ j < 2 * hi) :
    lo ≤ roundSignificand n ∧ roundSignificand n < hi := by
  obtain ⟨s, a, hP, hle, hge, hbig, hs⟩ := roundSignificand_spec n
  have hsj : s ≤ j := hs j hn
  have htj : 2 ^ s ≤ 2 ^ j := Nat.pow_le_pow_right (by norm_num) hsj
  have htpos : 0 < 2 ^ s := Nat.pos_pow_of_pos _ (by norm_num)
  have hr := hreach (2 ^ s) htpos htj hbig
  constructor
  · by_contra hcon
    have hlt : roundSignificand n < lo := Nat.lt_of_not_le hcon
    have hlo' : lo = (b * 2 ^ (k - s)) * 2 ^ s := by
      rw [hlo, Nat.mul_assoc, ← pow_add]
      congr 2
      omega
    rw [hP, hlo'] at hlt
    have hstep := mul_add_le_of_mul_lt hlt
    rw [← hP, ← hlo'] at hstep
    omega
  · omega

theorem aggregateLowPercentile_num : AggregateLowPercentile.num = 8106479329266893 := by
  decide

theorem aggregateHighPercentile_num : AggregateHighPercentile.num = 5404319552844595 := by
  decide

/-- The two constants are normalised `float64` values: their significands have exactly 53
bits, so each is the `float64` nearest to its decimal literal. -/
theorem aggregatePercentiles_normalized :
    2 ^ 52 ≤ AggregateLowPercentile.num ∧ AggregateLowPercentile.num < 2 ^ 53 ∧
    2 ^ 52 ≤ AggregateHighPercentile.num ∧ AggregateHighPercentile.num < 2 ^ 53 := by
  decide

/-- A known value of `float64` arithmetic: `3 * 1.2` is `3.5999999999999996`, the number
`16212958658533784 / 2 ^ 52`, on a tie rounded to the even significand. -/
theorem float64_three_times_high :
    (Float64.ofInt 3).mul AggregateHighPercentile
      = { neg := false, num := 16212958658533784, scale := 52 } := by
  decide

/-- The product `float64(v) * 0.9` has the integer part `⌊9 v / 10⌋`. -/
theorem low_product_trunc (v : Nat) (hv : v < 2 ^ 48) :
    roundSignificand (roundSignificand v * AggregateLowPercentile.num) / 2 ^ 53
      = 9 * v / 10 := by
  rw [roundSignificand_of_lt v (by omega), aggregateLowPercentile_num]
  have hb := roundSignificand_bracket (v * 8106479329266893) (9 * v / 10 * 2 ^ 53)
    ((9 * v / 10 + 1) * 2 ^ 53) 53 48 (9 * v / 10) (by omega) (by omega) rfl
    (by intro t ht _ _; omega) (by omega)
  exact Nat.div_eq_of_lt_le hb.1 hb.2

/-- The product `float64(v) * 1.2` has the integer part `⌊12 v / 10⌋`. -/
theorem high_product_trunc (v : Nat) (hv : v < 2 ^ 48) :
    roundSignificand (roundSignificand v * AggregateHighPercentile.num) / 2 ^ 52
      = 12 * v / 10 := by
  rw [roundSignificand_of_lt v (by omega), aggregateHighPercentile_num]
  have hb := roundSignificand_bracket (v * 5404319552844595) (12 * v / 10 * 2 ^ 52)
    ((12 * v / 10 + 1) * 2 ^ 52) 52 48 (12 * v / 10) (by omega) (by omega) rfl
    (by intro t ht _ hbig; omega) (by omega)
  exact Nat.div_eq_of_lt_le hb.1 hb.2

theorem mul_low_trunc (v : Nat) (hv : v < 2 ^ 48) :
    ((Float64.ofInt (v : Int)).mul AggregateLowPercentile).trunc = ((9 * v / 10 : Nat) : Int) := by
  have h := low_product_trunc v hv
  simp only [Float64.trunc, Float64.mul, Float64.ofInt, Int.natAbs_ofNat]
  have hneg : decide ((v : Int) < 0) = false := by simp
  have hs : AggregateLowPercentile.scale = 53 := rfl
  have hn : AggregateLowPercentile.neg = false := rfl
  rw [hneg, hs, hn, Nat.zero_add, h]
  rfl

theorem mul_high_trunc (v : Nat) (hv : v < 2 ^ 48) :
    ((Float64.ofInt (v : Int)).mul AggregateHighPercentile).trunc
      = ((12 * v / 10 : Nat) : Int) := by
  have h := high_product_trunc v hv
  simp only [Float64.trunc, Float64.mul, Float64.ofInt, Int.natAbs_ofNat]
  have hneg : decide ((v : Int) < 0) = false := by simp
  have hs : AggregateHighPercentile.scale = 52 := rfl
  have hn : AggregateHighPercentile.neg = false := rfl
  rw [hneg, hs, hn, Nat.zero_add, h]
  rfl

theorem cvttsd2sq_of_range (t : Int) (h0 : 0 ≤ t) (h : t < 2 ^ 63) : cvttsd2sq t = t := by
  unfold cvttsd2sq
  rw [if_pos ⟨by omega, h⟩]

theorem toInt_of_trunc (x : Float64) (n : Nat) (hx : x.trunc = (n : Int)) (hn : n < 2 ^ 63) :
    x.toInt = (n : Int) := by
  rw [Float64.toInt, hx]
  exact cvttsd2sq_of_range _ (Int.ofNat_nonneg n) (by exact_mod_cast hn)

theorem toUint64_of_trunc (x : Float64) (n : Nat) (hx : x.trunc = (n : Int))
    (hn : n < 2 ^ 64) : x.toUint64 = n := by
  rw [Float64.toUint64, hx]
  by_cases hlt : n < 2 ^ 63
  · have hlt' : (n : Int) < 2 ^ 63 := by exact_mod_cast hlt
    rw [if_pos hlt', cvttsd2sq_of_range _ (Int.ofNat_nonneg n) hlt']
    have h64 : (n : Int) < 2 ^ 64 := by exact_mod_cast hn
    rw [Int.emod_eq_of_lt (Int.ofNat_nonneg n) h64, Int.toNat_ofNat]
  · have hge : ¬ ((n : Int) < 2 ^ 63) := by
      intro hcon
      exact hlt (by exact_mod_cast hcon)
    rw [if_neg hge]
    have hsub : (n : Int) - 2 ^ 63 = ((n - 2 ^ 63 : Nat) : Int) := by
      have : 2 ^ 63 ≤ n := Nat.le_of_not_lt hlt
      omega
    have hm : n - 2 ^ 63 < 2 ^ 63 := by omega
    have hm' : ((n - 2 ^ 63 : Nat) : Int) < 2 ^ 63 := by exact_mod_cast hm
    have hm64 : ((n - 2 ^ 63 : Nat) : Int) < 2 ^ 64 := by omega
    rw [hsub, cvttsd2sq_of_range _ (Int.ofNat_nonneg _) hm',
      Int.emod_eq_of_lt (Int.ofNat_nonneg _) hm64, Int.toNat_ofNat, Nat.lor_comm]
    have hor := Nat.mul_add_lt_is_or hm 1
    rw [Nat.mul_one] at hor
    rw [← hor]
    omega

theorem toInt_mul_low (V : Int) (h0 : 0 ≤ V) (h : V < 2 ^ 48) :
    ((Float64.ofInt V).mul AggregateLowPercentile).toInt = 9 * V / 10 := by
  obtain ⟨v, rfl⟩ := Int.eq_ofNat_of_zero_le h0
  have hv : v < 2 ^ 48 := by exact_mod_cast h
  rw [toInt_of_trunc _ _ (mul_low_trunc v hv) (by omega)]
  push_cast
  rfl

theorem toInt_mul_high (V : Int) (h0 : 0 ≤ V) (h : V < 2 ^ 48) :
    ((Float64.ofInt V).mul AggregateHighPercentile).toInt = 12 * V / 10 := by
  obtain ⟨v, rfl⟩ := Int.eq_ofNat_of_zero_le h0
  have hv : v < 2 ^ 48 := by exact_mod_cast h
  rw [toInt_of_trunc _ _ (mul_high_trunc v hv) (by omega)]
  push_cast
  rfl

theorem toUint64_mul_low (M : Int) (h0 : 0 ≤ M) (h : M < 2 ^ 48) :
    ((Float64.ofInt M).mul AggregateLowPercentile).toUint64 = (9 * M / 10).toNat := by
  obtain ⟨m, rfl⟩ := Int.eq_ofNat_of_zero_le h0
  have hm : m < 2 ^ 48 := by exact_mod_cast h
  rw [toUint64_of_trunc _ _ (mul_low_trunc m hm) (by omega)]
  have hcast : (9 * (m : Int) / 10) = ((9 * m / 10 : Nat) : Int) := by push_cast; rfl
  rw [hcast, Int.toNat_ofNat]

theorem toUint64_mul_high (M : Int) (h0 : 0 ≤ M) (h : M < 2 ^ 48) :
    ((Float64.ofInt M).mul AggregateHighPercentile).toUint64 = (12 * M / 10).toNat := by
  obtain ⟨m, rfl⟩ := Int.eq_ofNat_of_zero_le h0
  have hm : m < 2 ^ 48 := by exact_mod_cast h
  rw [toUint64_of_trunc _ _ (mul_high_trunc m hm) (by omega)]
  have hcast : (12 * (m : Int) / 10) = ((12 * m / 10 : Nat) : Int) := by push_cast; rfl
  rw [hcast, Int.toNat_ofNat]

/-- C4 (as stated, refuted): the catalog `m5Catalog` knows `m5.large` with 2 vCPUs and 8192 MiB
(record `m5Large`); the transform returns `VCpusRange = {1, 2}` and `MemoryRange = {7372,
9830}`, while `round(0.9 * 2) = 2` and `round(0.9 * 8192) = 7373`. -/
theorem C4_counterexample :
    TransformBaseInstanceType m5Catalog { InstanceTypeBase := some "m5.large" }
      = some (m5Expanded, none) ∧
    m5Expanded.VCpusRange = some { LowerBound := 1, UpperBound := 2 } ∧
    m5Expanded.MemoryRange
      = some { LowerBound := { Quantity := 7372 }, UpperBound := { Quantity := 9830 } } ∧
    specRound (9 * 2) 10 = 2 ∧ specRound (12 * 2) 10 = 2 ∧
    specRound (9 * 8192) 10 = 7373 ∧ specRound (12 * 8192) 10 = 9830 ∧
    m5Expanded.VCpusRange
      ≠ some { LowerBound := specRound (9 * 2) 10, UpperBound := specRound (12 * 2) 10 } := by
  decide

/-- C4 (amended): for every instance type `X` for which the catalog returns, without error, a
record with a non-empty architecture list, default vCPU count `V` and memory size `M`, where
`0 ≤ V < 2 ^ 48` and `0 ≤ M < 2 ^ 48`, `TransformBaseInstanceType` applied to a Filters in which
only `InstanceTypeBase = X` is set succeeds with `VCpusRange = {⌊0.9 V⌋, ⌊1.2 V⌋}` and
`MemoryRange = {⌊0.9 M⌋, ⌊1.2 M⌋}`: the products are truncated, not rounded to the nearest
integer; and `InstanceTypeBase` is unset in the result. -/
theorem C4_base_instance_type_ranges (itf : Selector) (X : String)
    (output : DescribeInstanceTypesOutput) (info : InstanceTypeInfo)
    (rest : List (Option InstanceTypeInfo)) (p : ProcessorInfo) (V M : Int)
    (hlookup : itf.EC2.DescribeInstanceTypes X = (some output, none))
    (hfirst : output.InstanceTypes = some info :: rest)
    (hproc : info.ProcessorInfo = some p) (harch : p.SupportedArchitectures ≠ [])
    (hmem : info.MemoryInfo = some { SizeInMiB := some M })
    (hcpu : info.VCpuInfo = some { DefaultVCpus := some V })
    (hV : 0 ≤ V ∧ V < 2 ^ 48) (hM : 0 ≤ M ∧ M < 2 ^ 48) :
    ∃ g, TransformBaseInstanceType itf { InstanceTypeBase := some X } = some (g, none) ∧
      g.VCpusRange = some { LowerBound := 9 * V / 10, UpperBound := 12 * V / 10 } ∧
      g.MemoryRange = some { LowerBound := { Quantity := (9 * M / 10).toNat },
                             UpperBound := { Quantity := (12 * M / 10).toNat } } ∧
      g.InstanceTypeBase = none := by
  obtain ⟨a, tail, hlist⟩ := List.exists_cons_of_ne_nil harch
  have hgpu : ∃ c, gpuCountOf info = some c := by
    unfold gpuCountOf getTotalGpusCount
    cases info.GpuInfo <;> simp
  obtain ⟨c, hc⟩ := hgpu
  refine ⟨{ BareMetal := info.BareMetal, CPUArchitecture := a,
            Fpga := some info.FpgaInfo.isSome,
            GpusRange := some { LowerBound := c, UpperBound := c },
            MemoryRange := some { LowerBound := { Quantity := (9 * M / 10).toNat },
                                  UpperBound := { Quantity := (12 * M / 10).toNat } },
            VCpusRange := some { LowerBound := 9 * V / 10, UpperBound := 12 * V / 10 } },
    ?_, rfl, rfl, rfl⟩
  simp [TransformBaseInstanceType, hlookup, hfirst, deriveFromInstanceType, deriveBareMetal,
    deriveCPUArchitecture, deriveFpga, deriveGpusRange, deriveMemoryRange, deriveVCpusRange,
    hproc, hlist, hmem, hcpu, hc, toInt_mul_low V hV.1 hV.2, toInt_mul_high V hV.1 hV.2,
    toUint64_mul_low M hM.1 hM.2, toUint64_mul_high M hM.1 hM.2]

/-- C4 (witness): the amended statement at the catalog `m5Catalog` and `m5.large`, with 2 vCPUs
and 8192 MiB. -/
theorem C4_base_instance_type_ranges_witness :
    ∃ g, TransformBaseInstanceType m5Catalog { InstanceTypeBase := some "m5.large" }
        = some (g, none) ∧
      g.VCpusRange = some { LowerBound := 9 * 2 / 10, UpperBound := 12 * 2 / 10 } ∧
      g.MemoryRange = some { LowerBound := { Quantity := (9 * 8192 / 10 : Int).toNat },
                             UpperBound := { Quantity := (12 * 8192 / 10 : Int).toNat } } ∧
      g.InstanceTypeBase = none :=
  C4_base_instance_type_ranges m5Catalog "m5.large" { InstanceTypes := [some m5Large] } m5Large
    [] { SupportedArchitectures := [some "x86_64"] } 2 8192 rfl rfl rfl (by decide) rfl rfl
    (by decide) (by decide)

/-! ## No-ops, defaults and the allow-list of the managed service -/

/-- C15: each operation is a no-op when its trigger field is unset: for every Filters `f`,
`TransformFlexible` returns `(f, no error)` when `Flexible` is unset, `TransformEmr` returns
`(f, no error)` when `Emr` is unset, and for every registry `ExecuteTransforms` returns
`(f, no error)` when `Service` is unset, whatever the registry holds. -/
theorem C15_noop_when_trigger_unset (syntaxError : String → Option Error) (itf : Selector)
    (caseTable : Char → Char) (sr : ServiceRegistry) (f : Filters) :
    (f.Flexible = none → TransformFlexible syntaxError itf f = (f, none)) ∧
    (f.Emr = none → TransformEmr syntaxError itf f = (f, none)) ∧
    (f.Service = none → ExecuteTransforms caseTable sr f = (f, none)) := by
  refine ⟨fun h => ?_, fun h => ?_, fun h => ?_⟩
  · simp only [TransformFlexible, h]
  · simp only [TransformEmr, h]
  · simp only [ExecuteTransforms, h]

/-- C15 (witness): `Filters{CPUArchitecture: "arm64"}` has no `Service`; it comes back unchanged
from the registry `eksRegistry`. -/
theorem C15_noop_when_trigger_unset_witness :
    ExecuteTransforms latin1Table eksRegistry { CPUArchitecture := some "arm64" }
      = ({ CPUArchitecture := some "arm64" }, none) :=
  (C15_noop_when_trigger_unset rejectAll m5Catalog latin1Table eksRegistry
    { CPUArchitecture := some "arm64" }).2.2 rfl

/-- C16: for every Filters `f` with `Flexible` set, given that `regexp.Compile` accepts the
fixed expression when `f.AllowList` is unset and it is called, `TransformFlexible` succeeds and
its result has `CPUArchitecture = "x86_64"` if `f` left it unset, `BareMetal = false` if `f`
left it unset, `Fpga = false` if `f` left it unset, and `AllowList` = the fixed pattern
`^[cmr][3-9][ag]?\..*$|^a[1-9]\..*$|^t[2-9]\..*$` if `f` left it unset; every field other than
these four and `VCpusRange` is returned as in `f`. -/
theorem C16_flexible_defaults (syntaxError : String → Option Error) (itf : Selector)
    (f : Filters) (hflex : f.Flexible ≠ none)
    (hcompile : f.AllowList = none → syntaxError flexiblePattern = none) :
    (TransformFlexible syntaxError itf f).2 = none ∧
    (f.CPUArchitecture = none →
      (TransformFlexible syntaxError itf f).1.CPUArchitecture = some "x86_64") ∧
    (f.BareMetal = none → (TransformFlexible syntaxError itf f).1.BareMetal = some false) ∧
    (f.Fpga = none → (TransformFlexible syntaxError itf f).1.Fpga = some false) ∧
    (f.AllowList = none →
      (TransformFlexible syntaxError itf f).1.AllowList
        = some { expr := "^[cmr][3-9][ag]?\\..*$|^a[1-9]\\..*$|^t[2-9]\\..*$" }) ∧
    agreeButFlexibleDefaults f (TransformFlexible syntaxError itf f).1 := by
  obtain ⟨base, flex, emr, svc, bm, fpga, arch, gpus, vcpus, mem, allow, deny⟩ := f
  cases flex with
  | none => exact absurd rfl hflex
  | some b =>
    cases allow with
    | none =>
      have hc : syntaxError flexiblePattern = none := hcompile rfl
      unfold flexiblePattern at hc
      cases arch <;> cases bm <;> cases fpga <;> cases vcpus <;> cases mem <;>
        simp [TransformFlexible, regexpCompile, hc, agreeButFlexibleDefaults, flexiblePattern]
    | some r =>
      cases arch <;> cases bm <;> cases fpga <;> cases vcpus <;> cases mem <;>
        simp [TransformFlexible, agreeButFlexibleDefaults]

/-- C16 (witness): `Filters{Flexible: true, Fpga: true}` with a pattern compiler that accepts
every expression. -/
theorem C16_flexible_defaults_witness :
    TransformFlexible acceptAll m5Catalog { Flexible := some true, Fpga := some true }
      = ({ Flexible := some true, Fpga := some true, CPUArchitecture := some "x86_64",
           BareMetal := some false,
           AllowList := some { expr := "^[cmr][3-9][ag]?\\..*$|^a[1-9]\\..*$|^t[2-9]\\..*$" },
           VCpusRange := some { LowerBound := 4, UpperBound := 4 } }, none) ∧
    (TransformFlexible acceptAll m5Catalog { Flexible := some true, Fpga := some true }).2
      = none :=
  ⟨by decide,
    (C16_flexible_defaults acceptAll m5Catalog { Flexible := some true, Fpga := some true }
      (by decide) (fun _ => rfl)).1⟩

/-- C18: for every Filters `f` with `Emr` set and `AllowList` unset, given that `regexp.Compile`
accepts the joined expression, `TransformEmr` succeeds and returns `AllowList` set to the single
pattern that is the `|`-disjunction of the six family expressions, in the order m, c, r, i,
x/z, d/g/p/h, and every field of the result other than `AllowList` equals the same field of
`f`; when `AllowList` is already set in `f` the result equals `f`, with no error. -/
theorem C18_emr_allow_list (syntaxError : String → Option Error) (itf : Selector)
    (f : Filters) (hemr : f.Emr ≠ none) :
    (f.AllowList = none → syntaxError (String.intercalate "|" itRegexList) = none →
      (TransformEmr syntaxError itf f).2 = none ∧
      (TransformEmr syntaxError itf f).1.AllowList
        = some { expr := String.intercalate "|" itRegexList } ∧
      agreeButAllowList f (TransformEmr syntaxError itf f).1) ∧
    (f.AllowList ≠ none → TransformEmr syntaxError itf f = (f, none)) ∧
    itRegexList.length = 6 ∧
    String.intercalate "|" itRegexList
      = "m[1-2,4]|m3\\.2?xlarge|m5[adgn]*\\.([0-9]*xlarge|metal)|m6g\\.[0-9]*xlarge" ++ "|" ++
        "c1\\.|c3\\.[0-9]*xlarge|c4\\.|c5[adn]?\\.[0-9]*xlarge|c6g\\.[0-9]*xlarge|cg1\\.|cc2\\.|cr1\\."
        ++ "|" ++
        "r[3-4]\\.[0-9]*xlarge|r5[adn]?\\.([0-9]*xlarge|metal)|r6g\\.[1-9]*xlarge" ++ "|" ++
        "i2\\.|i3[en]*\\.[0-9]*xlarge" ++ "|" ++
        "x1\\.32xlarge|z1d\\.[0-9]*xlarge" ++ "|" ++
        "d2\\.|g2\\.2xlarge|g[3-4][sdn]*\\.[0-9]*xlarge|p2\\.|p3\\.|p3dn\\.|hi1\\.|hs1\\.|h1\\." := by
  refine ⟨?_, ?_, rfl, rfl⟩
  · intro hallow hc
    obtain ⟨base, flex, emr, svc, bm, fpga, arch, gpus, vcpus, mem, allow, deny⟩ := f
    simp only at hallow hemr
    subst hallow
    cases emr with
    | none => exact absurd rfl hemr
    | some b => simp [TransformEmr, regexpCompile, hc, agreeButAllowList]
  · intro hallow
    obtain ⟨base, flex, emr, svc, bm, fpga, arch, gpus, vcpus, mem, allow, deny⟩ := f
    cases emr with
    | none => exact absurd rfl hemr
    | some b =>
      cases allow with
      | none => exact absurd rfl hallow
      | some r => simp [TransformEmr]

/-- C18 (witness): `Filters{Emr: true}` with a pattern compiler that accepts every
expression. -/
theorem C18_emr_allow_list_witness :
    (TransformEmr acceptAll m5Catalog { Emr := some true }).2 = none ∧
    (TransformEmr acceptAll m5Catalog { Emr := some true }).1.AllowList
      = some { expr := String.intercalate "|" itRegexList } ∧
    agreeButAllowList { Emr := some true }
      (TransformEmr acceptAll m5Catalog { Emr := some true }).1 :=
  (C18_emr_allow_list acceptAll m5Catalog { Emr := some true } (by decide)).1 rfl rfl

/-- C14: `SortOptionsFrom` returns an absent result if and only if its input is absent: the nil
input gives nil, and every present input string gives a present `SortOptions`; the empty string
gives the `SortOptions` of the single column with the empty name. -/
theorem C14_sort_options_absent_iff (sortOptions : Option String) :
    (SortOptionsFrom sortOptions = none ↔ sortOptions = none) ∧
    SortOptionsFrom none = none ∧
    (∀ text : String, (SortOptionsFrom (some text)).isSome = true) ∧
    SortOptionsFrom (some "") = some { SortColumns := [{ Column := "", Mode := "asc" }] } := by
  refine ⟨?_, rfl, fun text => rfl, by decide⟩
  cases sortOptions with
  | none => simp [SortOptionsFrom]
  | some text => simp [SortOptionsFrom]

/-! ## Letter case of the service name, and failures -/

theorem serviceNameAndVersion_congr (caseTable : Char → Char) (s1 s2 : String)
    (h : stringsToLower caseTable s1 = stringsToLower caseTable s2) :
    serviceNameAndVersion caseTable s1 = serviceNameAndVersion caseTable s2 := by
  simp only [serviceNameAndVersion, h]

theorem mergoMerge_agreeButService (f1 f2 cand : Filters) (h : agreeButService f1 f2) :
    agreeButService (mergoMerge f1 cand).1 (mergoMerge f2 cand).1 := by
  obtain ⟨h1, h2, h3, h4, h5, h6, h7, h8, h9, h10, h11⟩ := h
  simp only [agreeButService, mergoMerge, h1, h2, h3, h4, h5, h6, h7, h8, h9, h10, h11,
    and_self]

theorem applyService_agreeButService (sr : ServiceRegistry) (f1 f2 : Filters)
    (name version : String) (h : agreeButService f1 f2) :
    (applyService sr f1 name version).2 = (applyService sr f2 name version).2 ∧
    agreeButService (applyService sr f1 name version).1 (applyService sr f2 name version).1 := by
  unfold applyService
  cases sr.lookup name with
  | none => exact ⟨rfl, h⟩
  | some service =>
    rcases hsv : service version with ⟨cand, err⟩
    cases err with
    | some e =>
      simp only [hsv]
      exact ⟨trivial, h⟩
    | none =>
      simp only [hsv]
      exact ⟨rfl, mergoMerge_agreeButService f1 f2 cand h⟩

/-- C12: service name matching is case-insensitive: for every registry and every two Filters
that differ only in their `Service` strings `s1` and `s2`, which `strings.ToLower` maps to the
same string, `ExecuteTransforms` parses the same service name and version, returns the same
error or no error for both, and the two Filters it returns agree in every field other than
`Service`. -/
theorem C12_service_case_insensitive (caseTable : Char → Char) (sr : ServiceRegistry)
    (f : Filters) (s1 s2 : String)
    (hcase : stringsToLower caseTable s1 = stringsToLower caseTable s2) :
    serviceNameAndVersion caseTable s1 = serviceNameAndVersion caseTable s2 ∧
    (ExecuteTransforms caseTable sr (withService f s1)).2
      = (ExecuteTransforms caseTable sr (withService f s2)).2 ∧
    agreeButService (ExecuteTransforms caseTable sr (withService f s1)).1
      (ExecuteTransforms caseTable sr (withService f s2)).1 := by
  have hparse := serviceNameAndVersion_congr caseTable s1 s2 hcase
  refine ⟨hparse, ?_⟩
  have hagree : agreeButService (withService f s1) (withService f s2) := by
    simp [agreeButService, withService]
  simp only [ExecuteTransforms, withService, hparse]
  exact applyService_agreeButService sr _ _ _ _ hagree

/-- C12 (witness): `ÉKS-1.21` and `éks-1.21` on the registry `accentRegistry`, whose key is
`éks`, with the case table of Latin-1: both calls succeed, and both return the version `1.21`
in `CPUArchitecture`. -/
theorem C12_service_case_insensitive_witness :
    (ExecuteTransforms latin1Table accentRegistry
        (withService { Fpga := some true } "ÉKS-1.21")).2 = none ∧
    (ExecuteTransforms latin1Table accentRegistry
        (withService { Fpga := some true } "ÉKS-1.21")).1.CPUArchitecture = some "1.21" ∧
    (ExecuteTransforms latin1Table accentRegistry (withService { Fpga := some true } "ÉKS-1.21")).2
      = (ExecuteTransforms latin1Table accentRegistry
          (withService { Fpga := some true } "éks-1.21")).2 ∧
    agreeButService
      (ExecuteTransforms latin1Table accentRegistry
        (withService { Fpga := some true } "ÉKS-1.21")).1
      (ExecuteTransforms latin1Table accentRegistry
        (withService { Fpga := some true } "éks-1.21")).1 :=
  ⟨by decide, by decide,
    (C12_service_case_insensitive latin1Table accentRegistry { Fpga := some true }
      "ÉKS-1.21" "éks-1.21" (by decide)).2⟩

theorem transformFlexible_no_error (syntaxError : String → Option Error) (itf : Selector)
    (f : Filters) (hcompile : syntaxError flexiblePattern = none) :
    (TransformFlexible syntaxError itf f).2 = none := by
  obtain ⟨base, flex, emr, svc, bm, fpga, arch, gpus, vcpus, mem, allow, deny⟩ := f
  cases flex with
  | none => simp [TransformFlexible]
  | some b =>
    cases arch <;> cases bm <;> cases fpga <;> cases allow <;> cases vcpus <;> cases mem <;>
      simp [TransformFlexible, regexpCompile, hcompile]

/-- C11: no partial application is visible on failure: for every input Filters `f`, whenever
`TransformBaseInstanceType` (catalog failure or no such type), `TransformEmr`
(pattern-compile failure) or `ExecuteTransforms` (unknown service or preset failure) returns an
error, the Filters returned with it equals `f` in every field; and `TransformFlexible`, whose
fixed expression `regexp.Compile` accepts, returns no error at all, so whenever it returns an
error the Filters returned with it equals `f` as well. -/
theorem C11_error_returns_input (syntaxError : String → Option Error) (itf : Selector)
    (caseTable : Char → Char) (sr : ServiceRegistry) (f : Filters)
    (hcompile : syntaxError flexiblePattern = none) :
    (∀ g e, TransformBaseInstanceType itf f = some (g, some e) → g = f) ∧
    (TransformFlexible syntaxError itf f).2 = none ∧
    ((TransformFlexible syntaxError itf f).2 ≠ none →
      (TransformFlexible syntaxError itf f).1 = f) ∧
    ((TransformEmr syntaxError itf f).2 ≠ none → (TransformEmr syntaxError itf f).1 = f) ∧
    ((ExecuteTransforms caseTable sr f).2 ≠ none →
      (ExecuteTransforms caseTable sr f).1 = f) := by
  have hflex := transformFlexible_no_error syntaxError itf f hcompile
  refine ⟨?_, hflex, fun h => absurd hflex h, ?_, ?_⟩
  · intro g e h
    rcases transformBaseInstanceType_cases itf f g (some e) h with ⟨hg, -⟩ | ⟨-, info, hd⟩
    · exact hg
    · have := (deriveFromInstanceType_keeps hd).2.2
      simp at this
  · obtain ⟨base, flex, emr, svc, bm, fpga, arch, gpus, vcpus, mem, allow, deny⟩ := f
    cases emr with
    | none => simp [TransformEmr]
    | some b =>
      cases hc : syntaxError (String.intercalate "|" itRegexList) <;> cases allow <;>
        simp [TransformEmr, regexpCompile, hc]
  · unfold ExecuteTransforms
    cases f.Service with
    | none => simp
    | some service =>
      simp only [applyService]
      cases sr.lookup (serviceNameAndVersion caseTable service).1 with
      | none => simp
      | some preset =>
        rcases hsv : preset (serviceNameAndVersion caseTable service).2 with ⟨cand, err⟩
        cases err with
        | some e => simp [hsv]
        | none => simp [hsv, mergoMerge]

/-- C11 (witness): a pattern compiler that accepts the fixed expression of `TransformFlexible`
and rejects every other one: `TransformEmr` on `Filters{Emr: true, Fpga: true}` returns the
error of the compiler together with its input. -/
theorem C11_error_returns_input_witness :
    acceptFlexibleOnly flexiblePattern = none ∧
    (TransformEmr acceptFlexibleOnly m5Catalog { Emr := some true, Fpga := some true }).2
      = some (Error.foreign "error parsing regexp") ∧
    (TransformEmr acceptFlexibleOnly m5Catalog { Emr := some true, Fpga := some true }).1
      = { Emr := some true, Fpga := some true } :=
  ⟨by decide, by decide,
    (C11_error_returns_input acceptFlexibleOnly m5Catalog latin1Table eksRegistry
      { Emr := some true, Fpga := some true } (by decide)).2.2.2.1 (by decide)⟩

/-! ## The derivations from the base instance type -/

/-- C17: for every Filters with `InstanceTypeBase = X` and `BareMetal`, `CPUArchitecture`,
`Fpga` and `GpusRange` unset, and every catalog record for `X` whose supported-architecture list
is non-empty (and which holds the memory size and the vCPU count as far as the transform reads
them), `TransformBaseInstanceType` succeeds, so the indexing of the architecture list does not
fault, with `BareMetal` = the bare-metal flag of the record, `CPUArchitecture` = the first entry
of the architecture list, `Fpga` = true if and only if the record has FPGA device info, and
`GpusRange = {g, g}` where `g` is the total GPU count of the record, or 0 when it has no GPU
info. -/
theorem C17_base_instance_type_capabilities (itf : Selector) (f : Filters) (X : String)
    (output : DescribeInstanceTypesOutput) (info : InstanceTypeInfo)
    (rest : List (Option InstanceTypeInfo)) (p : ProcessorInfo) (first : Option String)
    (others : List (Option String))
    (hX : f.InstanceTypeBase = some X) (hbm : f.BareMetal = none)
    (harch : f.CPUArchitecture = none) (hfpga : f.Fpga = none) (hgpus : f.GpusRange = none)
    (hlookup : itf.EC2.DescribeInstanceTypes X = (some output, none))
    (hfirst : output.InstanceTypes = some info :: rest)
    (hproc : info.ProcessorInfo = some p) (hlist : p.SupportedArchitectures = first :: others)
    (hmem : f.MemoryRange = none → ∃ m size, info.MemoryInfo = some m ∧ m.SizeInMiB = some size)
    (hcpu : f.VCpusRange = none →
      ∃ v count, info.VCpuInfo = some v ∧ v.DefaultVCpus = some count) :
    ∃ g, TransformBaseInstanceType itf f = some (g, none) ∧
      g.BareMetal = info.BareMetal ∧
      g.CPUArchitecture = first ∧
      (∃ b, g.Fpga = some b ∧ (b = true ↔ info.FpgaInfo ≠ none)) ∧
      (info.GpuInfo = none → g.GpusRange = some { LowerBound := 0, UpperBound := 0 }) ∧
      (∀ gpuInfo total, info.GpuInfo = some gpuInfo → getTotalGpusCount gpuInfo = some total →
        g.GpusRange = some { LowerBound := total, UpperBound := total }) := by
  obtain ⟨base, flex, emr, svc, bm, fpga, arch, gpus, vcpus, mem, allow, deny⟩ := f
  simp only at hX hbm harch hfpga hgpus hmem hcpu
  subst hX hbm harch hfpga hgpus
  have hgpu : ∃ c, gpuCountOf info = some c ∧
      (info.GpuInfo = none → c = 0) ∧
      (∀ gpuInfo total, info.GpuInfo = some gpuInfo → getTotalGpusCount gpuInfo = some total →
        c = total) := by
    unfold gpuCountOf
    cases hg : info.GpuInfo with
    | none => exact ⟨0, rfl, fun _ => rfl, fun _ _ h => by simp at h⟩
    | some gi =>
      refine ⟨gi.Gpus.sum, rfl, fun h => by simp at h, ?_⟩
      intro gpuInfo total h1 h2
      simp only [Option.some.injEq] at h1
      subst h1
      simpa [getTotalGpusCount] using h2
  obtain ⟨c, hc, hc0, hctotal⟩ := hgpu
  have hfpgaiff : (info.FpgaInfo.isSome = true ↔ info.FpgaInfo ≠ none) := by
    cases info.FpgaInfo <;> simp
  have hstepM : ∀ f4 : Filters, f4.MemoryRange = mem →
      ∃ MR, deriveMemoryRange (some info) f4 = some { f4 with MemoryRange := MR } := by
    intro f4 h4
    obtain ⟨b4, fl4, e4, s4, bm4, fp4, a4, g4, v4, m4, al4, d4⟩ := f4
    simp only at h4
    subst h4
    unfold deriveMemoryRange
    cases m4 with
    | none =>
      obtain ⟨m, size, hm, hsize⟩ := hmem rfl
      refine ⟨some
        { LowerBound :=
            { Quantity := ((Float64.ofInt size).mul AggregateLowPercentile).toUint64 }
          UpperBound :=
            { Quantity := ((Float64.ofInt size).mul AggregateHighPercentile).toUint64 } },
        ?_⟩
      simp [hm, hsize]
    | some mr => exact ⟨some mr, by simp⟩
  have hstepV : ∀ f5 : Filters, f5.VCpusRange = vcpus →
      ∃ VR, deriveVCpusRange (some info) f5 = some { f5 with VCpusRange := VR } := by
    intro f5 h5
    obtain ⟨b5, fl5, e5, s5, bm5, fp5, a5, g5, v5, m5, al5, d5⟩ := f5
    simp only at h5
    subst h5
    unfold deriveVCpusRange
    cases v5 with
    | none =>
      obtain ⟨v, count, hv, hcount⟩ := hcpu rfl
      refine ⟨some
        { LowerBound := ((Float64.ofInt count).mul AggregateLowPercentile).toInt
          UpperBound := ((Float64.ofInt count).mul AggregateHighPercentile).toInt }, ?_⟩
      simp [hv, hcount]
    | some vr => exact ⟨some vr, by simp⟩
  obtain ⟨MR, hM⟩ := hstepM
    { InstanceTypeBase := some X, Flexible := flex, Emr := emr, Service := svc,
      BareMetal := info.BareMetal, Fpga := some info.FpgaInfo.isSome,
      CPUArchitecture := first, GpusRange := some { LowerBound := c, UpperBound := c },
      VCpusRange := vcpus, MemoryRange := mem, AllowList := allow, DenyList := deny } rfl
  obtain ⟨VR, hV⟩ := hstepV
    { InstanceTypeBase := some X, Flexible := flex, Emr := emr, Service := svc,
      BareMetal := info.BareMetal, Fpga := some info.FpgaInfo.isSome,
      CPUArchitecture := first, GpusRange := some { LowerBound := c, UpperBound := c },
      VCpusRange := vcpus, MemoryRange := MR, AllowList := allow, DenyList := deny } rfl
  refine ⟨{ InstanceTypeBase := none, Flexible := flex, Emr := emr, Service := svc,
            BareMetal := info.BareMetal, Fpga := some info.FpgaInfo.isSome,
            CPUArchitecture := first, GpusRange := some { LowerBound := c, UpperBound := c },
            VCpusRange := VR, MemoryRange := MR, AllowList := allow, DenyList := deny },
    ?_, rfl, rfl, ⟨_, rfl, hfpgaiff⟩, fun h => by rw [hc0 h],
    fun gi total h1 h2 => by rw [hctotal gi total h1 h2]⟩
  simp only [TransformBaseInstanceType, hlookup, hfirst, deriveFromInstanceType,
    deriveBareMetal, deriveCPUArchitecture, deriveFpga, deriveGpusRange, hproc, hlist, hc,
    Option.bind_eq_bind, Option.pure_def, Option.some_bind, List.head?_cons, if_true]
  simp only [hM, hV, Option.some_bind]

/-- C17 (witness): the catalog `acceleratedCatalog` and `Filters{InstanceTypeBase: "p4d"}`: the
record has two architectures, FPGA info and 8 GPUs in all. -/
theorem C17_base_instance_type_capabilities_witness :
    ∃ g, TransformBaseInstanceType acceleratedCatalog { InstanceTypeBase := some "p4d" }
        = some (g, none) ∧
      g.BareMetal = some false ∧
      g.CPUArchitecture = some "x86_64" ∧
      (∃ b, g.Fpga = some b ∧ (b = true ↔ acceleratedRecord.FpgaInfo ≠ none)) ∧
      (acceleratedRecord.GpuInfo = none →
        g.GpusRange = some { LowerBound := 0, UpperBound := 0 }) ∧
      (∀ gpuInfo total, acceleratedRecord.GpuInfo = some gpuInfo →
        getTotalGpusCount gpuInfo = some total →
        g.GpusRange = some { LowerBound := total, UpperBound := total }) :=
  C17_base_instance_type_capabilities acceleratedCatalog { InstanceTypeBase := some "p4d" }
    "p4d" { InstanceTypes := [some acceleratedRecord] } acceleratedRecord []
    { SupportedArchitectures := [some "x86_64", some "i386"] } (some "x86_64") [some "i386"]
    rfl rfl rfl rfl rfl rfl rfl rfl rfl (fun _ => ⟨_, _, rfl, rfl⟩) (fun _ => ⟨_, _, rfl, rfl⟩)

/-! ## The sort options -/

theorem stringsSplit_length (s : String) (sep : Char) :
    (stringsSplit s sep).length = s.data.count sep + 1 := by
  simp only [stringsSplit, List.length_map, splitChars_length]

theorem stringsSplit_headD (s : String) (sep : Char) :
    (stringsSplit s sep).headD "" = String.mk (s.data.takeWhile (fun c => c != sep)) := by
  simp only [stringsSplit]
  rw [← splitChars_head]
  cases h : splitChars sep s.data with
  | nil => exact absurd h (splitChars_ne_nil _ _)
  | cons a b => simp

theorem stringsSplit_second (s : String) (sep : Char) (h : s.data.count sep = 1) :
    (stringsSplit s sep).getD 1 ""
      = String.mk ((s.data.dropWhile (fun c => c != sep)).drop 1) := by
  have hpos : 0 < s.data.count sep := by omega
  have hrest := count_dropWhile_drop sep _ hpos
  have hz : ((s.data.dropWhile (fun c => c != sep)).drop 1).count sep = 0 := by omega
  have htail := (splitChars_tail sep _ hpos).trans (splitChars_of_count_zero _ _ hz)
  simp only [stringsSplit]
  cases hs : splitChars sep s.data with
  | nil => exact absurd hs (splitChars_ne_nil _ _)
  | cons a b =>
    rw [hs] at htail
    simp only [List.tail_cons] at htail
    subst htail
    simp

theorem sortColumn_eq_spec (column : String) :
    ({ Column := (stringsSplit column ':').headD ""
       Mode := if (stringsSplit column ':').length = 2 then (stringsSplit column ':').getD 1 ""
               else "asc" } : SortColumn) = specSortColumn column := by
  unfold specSortColumn
  rw [stringsSplit_headD, stringsSplit_length]
  by_cases h : column.data.count ':' = 1
  · rw [stringsSplit_second column ':' h, h]
    simp
  · have h2 : ¬ (column.data.count ':' + 1 = 2) := by omega
    rw [if_neg h2, if_neg h]

theorem sortOptionsFrom_eq_spec (text : String) :
    SortOptionsFrom (some text)
      = some { SortColumns := (stringsSplit text ',').map specSortColumn } := by
  simp only [SortOptionsFrom, Option.some.injEq, SortOptions.mk.injEq]
  apply List.map_congr_left
  intro column _
  exact sortColumn_eq_spec column

/-- C20: for every present input `text` to `SortOptionsFrom`, the result is present and has
exactly (number of `,` in `text`) + 1 pairs, so at least one; the pair of a token has as column
the text before the first `:` of the token, and as mode the text after the `:` when the token
has exactly one `:` and `asc` otherwise, so `a:b:c` yields the pair (`a`, `asc`), and the empty
input string yields the single pair (empty column, `asc`). -/
theorem C20_sort_options_shape (text : String) :
    SortOptionsFrom (some text)
      = some { SortColumns := (stringsSplit text ',').map specSortColumn } ∧
    ((stringsSplit text ',').map specSortColumn).length = text.data.count ',' + 1 ∧
    1 ≤ ((stringsSplit text ',').map specSortColumn).length ∧
    SortOptionsFrom (some "a:b:c") = some { SortColumns := [{ Column := "a", Mode := "asc" }] } ∧
    SortOptionsFrom (some "") = some { SortColumns := [{ Column := "", Mode := "asc" }] } := by
  refine ⟨sortOptionsFrom_eq_spec text, ?_, ?_, by decide, by decide⟩
  · rw [List.length_map, stringsSplit_length]
  · rw [List.length_map, stringsSplit_length]
    omega

theorem splitChars_append_sep (sep : Char) (piece rest : List Char) (h : sep ∉ piece) :
    splitChars sep (piece ++ sep :: rest) = piece :: splitChars sep rest := by
  induction piece with
  | nil => simp [splitChars_cons_sep]
  | cons c cs ih =>
    have hc : c ≠ sep := fun hcs => h (by simp [hcs])
    have hcs : sep ∉ cs := fun hm => h (List.mem_cons_of_mem _ hm)
    rw [List.cons_append, splitChars_cons_ne sep c _ hc, ih hcs]
    simp

theorem splitChars_joinWithCommas (pieces : List (List Char)) (hne : pieces ≠ [])
    (h : ∀ piece ∈ pieces, ',' ∉ piece) :
    splitChars ',' (joinWithCommas pieces) = pieces := by
  induction pieces with
  | nil => exact absurd rfl hne
  | cons piece rest ih =>
    cases rest with
    | nil =>
      simp only [joinWithCommas]
      exact splitChars_of_count_zero _ _
        (List.count_eq_zero_of_not_mem (h piece (List.mem_cons_self _ _)))
    | cons next rest' =>
      simp only [joinWithCommas]
      rw [splitChars_append_sep ',' piece _ (h piece (List.mem_cons_self _ _))]
      rw [ih (by simp) (fun q hq => h q (List.mem_cons_of_mem _ hq))]

theorem specSortColumn_of_token (t : SortToken) (hwf : t.wellFormed) :
    specSortColumn (String.mk t.text) = t.pair := by
  obtain ⟨column, direction⟩ := t
  obtain ⟨-, hcolon, hdir⟩ := hwf
  simp only at hcolon hdir
  have hcount : column.data.count ':' = 0 := List.count_eq_zero_of_not_mem hcolon
  cases direction with
  | none =>
    simp only [specSortColumn, SortToken.text, SortToken.pair, hcount, Option.getD_none]
    have htw : column.data.takeWhile (fun c => c != ':') = column.data := by
      rw [List.takeWhile_eq_self_iff]
      intro c hc
      simp only [bne_iff_ne, ne_eq]
      intro hcc
      exact hcolon (hcc ▸ hc)
    rw [htw]
    simp
  | some d =>
    obtain ⟨-, hd⟩ := hdir d rfl
    have hdcount : d.data.count ':' = 0 := List.count_eq_zero_of_not_mem hd
    have hall : ∀ c ∈ column.data, (c != ':') = true := by
      intro c hc
      simp only [bne_iff_ne, ne_eq]
      intro hcc
      exact hcolon (hcc ▸ hc)
    have htw : (column.data ++ ':' :: d.data).takeWhile (fun c => c != ':') = column.data := by
      rw [List.takeWhile_append_of_pos hall]
      simp
    have hdw : (column.data ++ ':' :: d.data).dropWhile (fun c => c != ':') = ':' :: d.data := by
      rw [List.dropWhile_append_of_pos hall]
      simp
    simp only [specSortColumn, SortToken.text, SortToken.pair, htw, hdw, List.count_append,
      hcount, List.count_cons_self, hdcount, Option.getD_some]
    simp

theorem comma_not_mem_text (t : SortToken) (hwf : t.wellFormed) : ',' ∉ t.text := by
  obtain ⟨column, direction⟩ := t
  obtain ⟨hcomma, -, hdir⟩ := hwf
  simp only at hcomma hdir
  cases direction with
  | none => simpa [SortToken.text] using hcomma
  | some d =>
    obtain ⟨hd, -⟩ := hdir d rfl
    simp [SortToken.text, hcomma, hd]

/-- C13: for every input string made of one or more comma-separated tokens of the form `column`
or `column:direction`, where a column and a direction hold no `,` and no `:`,
`SortOptionsFrom` returns exactly one (Column, Mode) pair per token, in input order, where
Column is the column of the token and Mode is its direction, or `asc` when the token has no
`:`; `vcpus:asc,memory:desc` gives [(`vcpus`, `asc`), (`memory`, `desc`)] and `memory` gives
[(`memory`, `asc`)]. -/
theorem C13_sort_options_tokens (tokens : List SortToken) (hne : tokens ≠ [])
    (hwf : ∀ t ∈ tokens, t.wellFormed) :
    SortOptionsFrom (some (sortSpecText tokens))
      = some { SortColumns := tokens.map SortToken.pair } ∧
    SortOptionsFrom (some "vcpus:asc,memory:desc")
      = some { SortColumns := [{ Column := "vcpus", Mode := "asc" },
                               { Column := "memory", Mode := "desc" }] } ∧
    SortOptionsFrom (some "memory")
      = some { SortColumns := [{ Column := "memory", Mode := "asc" }] } := by
  refine ⟨?_, by decide, by decide⟩
  have hcomma : ∀ piece ∈ tokens.map SortToken.text, ',' ∉ piece := by
    intro piece hp
    obtain ⟨t, ht, rfl⟩ := List.mem_map.mp hp
    exact comma_not_mem_text t (hwf t ht)
  rw [sortOptionsFrom_eq_spec]
  simp only [sortSpecText, stringsSplit,
    splitChars_joinWithCommas _ (by simpa using hne) hcomma, List.map_map,
    Option.some.injEq, SortOptions.mk.injEq]
  apply List.map_congr_left
  intro t ht
  exact specSortColumn_of_token t (hwf t ht)

/-- C13 (witness): the tokens `vcpus:asc` and `memory`. -/
theorem C13_sort_options_tokens_witness :
    SortOptionsFrom (some (sortSpecText
        [{ column := "vcpus", direction := some "asc" },
         { column := "memory", direction := none }]))
      = some { SortColumns := [{ Column := "vcpus", Mode := "asc" },
                               { Column := "memory", Mode := "asc" }] } :=
  (C13_sort_options_tokens
    [{ column := "vcpus", direction := some "asc" }, { column := "memory", direction := none }]
    (by decide) (by
      intro t ht
      simp only [List.mem_cons, List.mem_singleton, List.not_mem_nil, or_false] at ht
      rcases ht with rfl | rfl <;> simp [SortToken.wellFormed])).1

/-! ## The order of the bounds -/

theorem excessBits_lower (fuel : Nat) :
    ∀ n : Nat, 0 < excessBits fuel n → 2 ^ (52 + excessBits fuel n) ≤ n := by
  induction fuel with
  | zero => intro n h; simp [excessBits] at h
  | succ k ih =>
    intro n h
    by_cases hlt : n < 2 ^ 53
    · rw [excessBits, if_pos hlt] at h
      exact absurd h (Nat.lt_irrefl 0)
    · rw [excessBits, if_neg hlt]
      have hpow : 2 ^ (52 + (excessBits k (n / 2) + 1)) = 2 * 2 ^ (52 + excessBits k (n / 2)) := by
        ring
      rw [hpow]
      rcases Nat.eq_zero_or_pos (excessBits k (n / 2)) with h0 | hpos
      · rw [h0]
        have : 2 * 2 ^ (52 + 0) = 2 ^ 53 := by norm_num
        omega
      · have := ih (n / 2) hpos
        omega

/-- Rounding to 53 significant bits changes a number by at most one part in `2 ^ 53`. -/
theorem roundSignificand_rel (n : Nat) :
    2 ^ 53 * roundSignificand n ≤ (2 ^ 53 + 1) * n ∧
    (2 ^ 53 - 1) * n ≤ 2 ^ 53 * roundSignificand n := by
  rcases Nat.eq_zero_or_pos (excessBits n n) with h0 | hpos
  · have hrs : roundSignificand n = n := by
      simp [roundSignificand, h0, roundDiv, Nat.mod_one]
    rw [hrs]
    constructor <;> omega
  · have hlow := excessBits_lower n n hpos
    have hb := roundDiv_mul_bounds n (2 ^ excessBits n n) (Nat.pos_pow_of_pos _ (by norm_num))
    have hP : roundSignificand n = roundDiv n (2 ^ excessBits n n) * 2 ^ excessBits n n := rfl
    rw [← hP] at hb
    have hsplit : 2 ^ (52 + excessBits n n) = 2 ^ 52 * 2 ^ excessBits n n := by
      rw [pow_add]
    rw [hsplit] at hlow
    generalize 2 ^ excessBits n n = t at hb hlow
    generalize roundSignificand n = P at hb
    constructor <;> omega

/-- The lower product, at 53 binary places, is at most twice the upper product, at 52. -/
theorem low_product_le_high (x : Nat) :
    roundSignificand (x * AggregateLowPercentile.num) / 2 ^ 53
      ≤ roundSignificand (x * AggregateHighPercentile.num) / 2 ^ 52 := by
  rw [aggregateLowPercentile_num, aggregateHighPercentile_num]
  have h1 := (roundSignificand_rel (x * 8106479329266893)).1
  have h2 := (roundSignificand_rel (x * 5404319552844595)).2
  generalize roundSignificand (x * 8106479329266893) = P1 at h1
  generalize roundSignificand (x * 5404319552844595) = P2 at h2
  have hle : P1 ≤ 2 * P2 := by omega
  omega

theorem high_product_lt (v : Nat) (bound : Nat) (hv : v < 2 ^ bound) :
    roundSignificand (roundSignificand v * AggregateHighPercentile.num) / 2 ^ 52
      < 2 ^ (bound + 1) := by
  rw [aggregateHighPercentile_num]
  have h0 := (roundSignificand_rel v).1
  have h1 := (roundSignificand_rel (roundSignificand v * 5404319552844595)).1
  generalize roundSignificand v = x at h0 h1
  generalize roundSignificand (x * 5404319552844595) = P2 at h1
  have hpow : 2 ^ (bound + 1) = 2 * 2 ^ bound := by ring
  rw [hpow]
  generalize 2 ^ bound = B at hv
  omega

theorem mul_low_trunc_eq (v : Nat) :
    ((Float64.ofInt (v : Int)).mul AggregateLowPercentile).trunc
      = ((roundSignificand (roundSignificand v * AggregateLowPercentile.num) / 2 ^ 53 : Nat)
          : Int) := by
  simp only [Float64.trunc, Float64.mul, Float64.ofInt, Int.natAbs_ofNat]
  have hneg : decide ((v : Int) < 0) = false := by simp
  have hs : AggregateLowPercentile.scale = 53 := rfl
  have hn : AggregateLowPercentile.neg = false := rfl
  rw [hneg, hs, hn, Nat.zero_add]
  rfl

theorem mul_high_trunc_eq (v : Nat) :
    ((Float64.ofInt (v : Int)).mul AggregateHighPercentile).trunc
      = ((roundSignificand (roundSignificand v * AggregateHighPercentile.num) / 2 ^ 52 : Nat)
          : Int) := by
  simp only [Float64.trunc, Float64.mul, Float64.ofInt, Int.natAbs_ofNat]
  have hneg : decide ((v : Int) < 0) = false := by simp
  have hs : AggregateHighPercentile.scale = 52 := rfl
  have hn : AggregateHighPercentile.neg = false := rfl
  rw [hneg, hs, hn, Nat.zero_add]
  rfl

/-- The two bounds `int` computes from a vCPU count below `2 ^ 62` are in order. -/
theorem toInt_low_le_high (V : Int) (h0 : 0 ≤ V) (h : V < 2 ^ 62) :
    ((Float64.ofInt V).mul AggregateLowPercentile).toInt
      ≤ ((Float64.ofInt V).mul AggregateHighPercentile).toInt := by
  obtain ⟨v, rfl⟩ := Int.eq_ofNat_of_zero_le h0
  have hv : v < 2 ^ 62 := by exact_mod_cast h
  have hle := low_product_le_high (roundSignificand v)
  have hlt := high_product_lt v 62 hv
  rw [toInt_of_trunc _ _ (mul_low_trunc_eq v) (by omega),
    toInt_of_trunc _ _ (mul_high_trunc_eq v) (by omega)]
  exact_mod_cast hle

/-- The two bounds `uint64` computes from a memory size that is a non-negative `int64` are in
order. -/
theorem toUint64_low_le_high (M : Int) (h0 : 0 ≤ M) (h : M < 2 ^ 63) :
    ((Float64.ofInt M).mul AggregateLowPercentile).toUint64
      ≤ ((Float64.ofInt M).mul AggregateHighPercentile).toUint64 := by
  obtain ⟨m, rfl⟩ := Int.eq_ofNat_of_zero_le h0
  have hm : m < 2 ^ 63 := by exact_mod_cast h
  have hle := low_product_le_high (roundSignificand m)
  have hlt := high_product_lt m 63 hm
  rw [toUint64_of_trunc _ _ (mul_low_trunc_eq m) (by omega),
    toUint64_of_trunc _ _ (mul_high_trunc_eq m) (by omega)]
  exact hle

theorem deriveBareMetal_only {info : Option InstanceTypeInfo} {f g : Filters}
    (h : deriveBareMetal info f = some g) : g = { f with BareMetal := g.BareMetal } := by
  unfold deriveBareMetal at h
  split at h
  · simp only [Option.bind_eq_bind, Option.pure_def, Option.bind_eq_some] at h
    obtain ⟨i, -, h⟩ := h
    simp only [Option.some.injEq] at h
    subst h
    rfl
  · simp only [Option.pure_def, Option.some.injEq] at h
    subst h
    rfl

theorem deriveCPUArchitecture_only {info : Option InstanceTypeInfo} {f g : Filters}
    (h : deriveCPUArchitecture info f = some g) :
    g = { f with CPUArchitecture := g.CPUArchitecture } := by
  unfold deriveCPUArchitecture at h
  split at h
  · simp only [Option.bind_eq_bind, Option.pure_def, Option.bind_eq_some] at h
    obtain ⟨i, -, p, -, a, -, h⟩ := h
    simp only [Option.some.injEq] at h
    subst h
    rfl
  · simp only [Option.pure_def, Option.some.injEq] at h
    subst h
    rfl

theorem deriveFpga_only {info : Option InstanceTypeInfo} {f g : Filters}
    (h : deriveFpga info f = some g) : g = { f with Fpga := g.Fpga } := by
  unfold deriveFpga at h
  split at h
  · simp only [Option.bind_eq_bind, Option.pure_def, Option.bind_eq_some] at h
    obtain ⟨i, -, h⟩ := h
    simp only [Option.some.injEq] at h
    subst h
    rfl
  · simp only [Option.pure_def, Option.some.injEq] at h
    subst h
    rfl

theorem deriveGpusRange_spec {info : Option InstanceTypeInfo} {f g : Filters}
    (h : deriveGpusRange info f = some g) :
    g = { f with GpusRange := g.GpusRange } ∧
    (f.GpusRange = none → ∃ c, g.GpusRange = some { LowerBound := c, UpperBound := c }) := by
  unfold deriveGpusRange at h
  split at h
  · simp only [Option.bind_eq_bind, Option.pure_def, Option.bind_eq_some] at h
    obtain ⟨i, -, c, -, h⟩ := h
    simp only [Option.some.injEq] at h
    subst h
    exact ⟨rfl, fun _ => ⟨c, rfl⟩⟩
  · rename_i hset
    simp only [Option.pure_def, Option.some.injEq] at h
    subst h
    exact ⟨rfl, fun hn => absurd hn hset⟩

theorem deriveMemoryRange_spec {info : InstanceTypeInfo} {f g : Filters} {m : MemoryInfo}
    {M : Int} (h : deriveMemoryRange (some info) f = some g) (hm : info.MemoryInfo = some m)
    (hM : m.SizeInMiB = some M) :
    g = { f with MemoryRange := g.MemoryRange } ∧
    (f.MemoryRange = none → g.MemoryRange = some
      { LowerBound := { Quantity := ((Float64.ofInt M).mul AggregateLowPercentile).toUint64 }
        UpperBound :=
          { Quantity := ((Float64.ofInt M).mul AggregateHighPercentile).toUint64 } }) := by
  unfold deriveMemoryRange at h
  split at h
  · simp only [Option.bind_eq_bind, Option.pure_def, Option.some_bind, hm, hM,
      Option.some.injEq] at h
    subst h
    exact ⟨rfl, fun _ => rfl⟩
  · rename_i hset
    simp only [Option.pure_def, Option.some.injEq] at h
    subst h
    exact ⟨rfl, fun hn => absurd hn hset⟩

theorem deriveVCpusRange_spec {info : InstanceTypeInfo} {f g : Filters} {v : VCpuInfo}
    {V : Int} (h : deriveVCpusRange (some info) f = some g) (hv : info.VCpuInfo = some v)
    (hV : v.DefaultVCpus = some V) :
    g = { f with VCpusRange := g.VCpusRange } ∧
    (f.VCpusRange = none → g.VCpusRange = some
      { LowerBound := ((Float64.ofInt V).mul AggregateLowPercentile).toInt
        UpperBound := ((Float64.ofInt V).mul AggregateHighPercentile).toInt }) := by
  unfold deriveVCpusRange at h
  split at h
  · simp only [Option.bind_eq_bind, Option.pure_def, Option.some_bind, hv, hV,
      Option.some.injEq] at h
    subst h
    exact ⟨rfl, fun _ => rfl⟩
  · rename_i hset
    simp only [Option.pure_def, Option.some.injEq] at h
    subst h
    exact ⟨rfl, fun hn => absurd hn hset⟩

/-- C19 (as stated, refuted): the catalog `hugeCatalog` returns a record with the vCPU count
8 * 10 ^ 18, a non-negative `int64`; the product with 1.2 is beyond the range of `int`, and on
amd64 `TransformBaseInstanceType` fills in `VCpusRange` with the lower bound 7200000000000000000
and the upper bound -9223372036854775808. -/
theorem C19_counterexample :
    TransformBaseInstanceType hugeCatalog { InstanceTypeBase := some "u-huge" }
      = some (hugeExpanded, none) ∧
    hugeExpanded.VCpusRange
      = some { LowerBound := 7200000000000000000, UpperBound := -9223372036854775808 } ∧
    ¬ ((7200000000000000000 : Int) ≤ -9223372036854775808) := by
  decide

/-- C19 (amended): for every catalog record with vCPU count `0 ≤ V < 2 ^ 62`, memory size `M`
a non-negative `int64` and any GPU count, each of `VCpusRange`, `MemoryRange` and `GpusRange`
that a successful `TransformBaseInstanceType` fills in (the field was unset in its input) is
set to a range with `LowerBound ≤ UpperBound`; and every `VCpusRange` that `TransformFlexible`
fills in is `{4, 4}`, with `LowerBound ≤ UpperBound`. -/
theorem C19_constructed_ranges_ordered (syntaxError : String → Option Error) (itf : Selector)
    (f g : Filters) (X : String) (output : DescribeInstanceTypesOutput)
    (info : InstanceTypeInfo) (rest : List (Option InstanceTypeInfo)) (v : VCpuInfo)
    (m : MemoryInfo) (V M : Int)
    (hX : f.InstanceTypeBase = some X)
    (hlookup : itf.EC2.DescribeInstanceTypes X = (some output, none))
    (hfirst : output.InstanceTypes = some info :: rest)
    (hv : info.VCpuInfo = some v) (hcount : v.DefaultVCpus = some V)
    (hm : info.MemoryInfo = some m) (hsize : m.SizeInMiB = some M)
    (hV : 0 ≤ V ∧ V < 2 ^ 62) (hM : 0 ≤ M ∧ M < 2 ^ 63)
    (hrun : TransformBaseInstanceType itf f = some (g, none)) :
    (f.VCpusRange = none →
      ∃ r, g.VCpusRange = some r ∧ r.LowerBound ≤ r.UpperBound) ∧
    (f.MemoryRange = none →
      ∃ r, g.MemoryRange = some r ∧ r.LowerBound.Quantity ≤ r.UpperBound.Quantity) ∧
    (f.GpusRange = none →
      ∃ r, g.GpusRange = some r ∧ r.LowerBound ≤ r.UpperBound) ∧
    (∀ f' : Filters, f'.VCpusRange = none →
      ∀ r, (TransformFlexible syntaxError itf f').1.VCpusRange = some r →
        r = { LowerBound := 4, UpperBound := 4 } ∧ r.LowerBound ≤ r.UpperBound) := by
  have hd : deriveFromInstanceType (some info) f = some (g, none) := by
    simpa only [TransformBaseInstanceType, hX, hlookup, hfirst] using hrun
  obtain ⟨f1, f2, f3, f4, f5, f6, h1, h2, h3, h4, h5, h6, hg, -⟩ :=
    deriveFromInstanceType_eq_some hd
  have e1 := deriveBareMetal_only h1
  have e2 := deriveCPUArchitecture_only h2
  have e3 := deriveFpga_only h3
  obtain ⟨e4, g4⟩ := deriveGpusRange_spec h4
  obtain ⟨e5, g5⟩ := deriveMemoryRange_spec h5 hm hsize
  obtain ⟨e6, g6⟩ := deriveVCpusRange_spec h6 hv hcount
  have hgv : g.VCpusRange = f6.VCpusRange := by rw [hg]
  have hgm : g.MemoryRange = f6.MemoryRange := by rw [hg]
  have hgg : g.GpusRange = f6.GpusRange := by rw [hg]
  refine ⟨?_, ?_, ?_, ?_⟩
  · intro hnone
    have h5v : f5.VCpusRange = none := by
      rw [e5]; simp only; rw [e4]; simp only; rw [e3]; simp only; rw [e2]; simp only
      rw [e1]; exact hnone
    refine ⟨_, hgv.trans (g6 h5v), ?_⟩
    exact toInt_low_le_high V hV.1 hV.2
  · intro hnone
    have h4m : f4.MemoryRange = none := by
      rw [e4]; simp only; rw [e3]; simp only; rw [e2]; simp only; rw [e1]; exact hnone
    have h6m : f6.MemoryRange = f5.MemoryRange := by rw [e6]
    refine ⟨_, (hgm.trans h6m).trans (g5 h4m), ?_⟩
    exact toUint64_low_le_high M hM.1 hM.2
  · intro hnone
    have h3g : f3.GpusRange = none := by
      rw [e3]; simp only; rw [e2]; simp only; rw [e1]; exact hnone
    obtain ⟨c, hc⟩ := g4 h3g
    have h6g : f6.GpusRange = f5.GpusRange := by rw [e6]
    have h5g : f5.GpusRange = f4.GpusRange := by rw [e5]
    exact ⟨_, ((hgg.trans h6g).trans h5g).trans hc, le_refl c⟩
  · intro f' hnone r hr
    obtain ⟨base, flex, emr, svc, bm, fpga, arch, gpus, vcpus, mem, allow, deny⟩ := f'
    simp only at hnone
    subst hnone
    have hr4 : r = { LowerBound := 4, UpperBound := 4 } := by
      cases flex with
      | none => simp [TransformFlexible] at hr
      | some b =>
        cases hc : syntaxError flexiblePattern <;> cases arch <;> cases bm <;> cases fpga <;>
          cases allow <;> cases mem <;>
          simp [TransformFlexible, regexpCompile, hc] at hr <;> exact hr.symm
    subst hr4
    exact ⟨rfl, le_refl _⟩

/-- C19 (witness): the catalog `m5Catalog` with 2 vCPUs and 8192 MiB fills in
`VCpusRange = {1, 2}`. -/
theorem C19_constructed_ranges_ordered_witness :
    ∃ r, m5Expanded.VCpusRange = some r ∧ r.LowerBound ≤ r.UpperBound :=
  (C19_constructed_ranges_ordered acceptAll m5Catalog { InstanceTypeBase := some "m5.large" }
    m5Expanded "m5.large" { InstanceTypes := [some m5Large] } m5Large []
    { DefaultVCpus := some 2 } { SizeInMiB := some 8192 } 2 8192 rfl rfl rfl rfl rfl rfl rfl
    (by decide) (by decide) (by decide)).1 rfl

end InstanceSelector
